import Mathlib

/-!
Verification of the trade-lifecycle simulation engine of `paper-bot`.

The definitions below are a shallow embedding of the canonical engine
implementation in `src/timeframe.cjs` (class `ImprovedTradingBacktest`
together with the `DataAnalysis` helpers).  JavaScript floating-point
numbers are modelled as exact rationals (`Rat`); a JavaScript `NaN` /
missing indicator value is modelled as `Option.none`; JavaScript strings
used as tags (`'long'`, `'buy'`, `'liquidation'`, interval names, strategy
modes) are modelled as Lean `String`s compared for equality, exactly as
the source compares them.  Field and function names follow the source.
-/

set_option allowUnsafeReducibility true in
attribute [semireducible] Rat.add Rat.sub Rat.mul Rat.inv Rat.ofScientific

namespace PaperBot

/-- A candle, as consumed by the engine (`timestamp, open, high, low,
close, volume`); timestamps are abstracted to naturals. -/
structure Candle where
  timestamp : Nat
  open_     : Rat
  high      : Rat
  low       : Rat
  close     : Rat
  volume    : Rat
  deriving Repr, DecidableEq

/-- Default candle returned by out-of-range index accesses.  Every access
performed by the engine is in range (the JS code would throw otherwise),
so this value is never observable in any modelled run. -/
def defaultCandle : Candle := ⟨0, 0, 0, 0, 0, 0⟩

/-- Source `data[i]` for a candle list. -/
def dAt (data : List Candle) (i : Nat) : Candle := data.getD i defaultCandle

/-- Constructor arguments of `ImprovedTradingBacktest`. -/
structure Config where
  initialCapital : Rat
  leverage       : Rat
  makerFee       : Rat
  takerFee       : Rat
  deriving Repr, DecidableEq

/-- Source `this.maintenanceMarginRate = 0.004`. -/
def maintenanceMarginRate : Rat := 4 / 1000

/-- Source `this.baseSlippage = 0.0003`. -/
def baseSlippage : Rat := 3 / 10000

/-- Source `this.volatilitySlippageMultiplier = 0.0002`. -/
def volatilitySlippageMultiplier : Rat := 2 / 10000

/-- Source `this.stopSlippageATRMultiplier = 0.3`. -/
def stopSlippageATRMultiplier : Rat := 3 / 10

/-- Source `this.profitThresholdATR = 0.5`. -/
def profitThresholdATR : Rat := 1 / 2

/-- Source `this.initialStopATR = 2.0`. -/
def initialStopATR : Rat := 2

/-- Source `this.profitTrailingATR = 1.0`. -/
def profitTrailingATR : Rat := 1

/-- One entry of `this.profitTiers`: `{ profitATR, trailATR }`. -/
structure ProfitTier where
  profitATR : Rat
  trailATR  : Rat
  deriving Repr, DecidableEq

/-- Source `this.profitTiers` (ascending by `profitATR`). -/
def profitTiers : List ProfitTier :=
  [⟨1/2, 1⟩, ⟨3/2, 3/4⟩, ⟨3, 1/2⟩]

/-- One entry of `this.regimeMultipliers`: `{ initial, profit }`. -/
structure RegimeMultiplier where
  initial : Rat
  profit  : Rat
  deriving Repr, DecidableEq

/-- Source `this.regimeMultipliers` keyed by regime name. -/
def regimeMultipliers (regimeType : String) : RegimeMultiplier :=
  if regimeType = "bull" then ⟨1, 12/10⟩
  else if regimeType = "bear" then ⟨1, 12/10⟩
  else ⟨1, 8/10⟩

/-- Per-timeframe indicator parameters (`this.timeframeParams` entries). -/
structure TimeframeParams where
  rsiPeriod      : Nat
  atrPeriod      : Nat
  emaFast        : Nat
  emaMedium      : Nat
  emaSlow        : Nat
  regimeLookback : Nat
  minHoldBars    : Nat
  deriving Repr, DecidableEq

/-- Source `this.defaultParams`. -/
def defaultParams : TimeframeParams := ⟨14, 14, 20, 50, 200, 50, 3⟩

/-- Source `getTimeframeParams(interval)`: the `timeframeParams` table with
fallback to `defaultParams`. -/
def getTimeframeParams (interval : String) : TimeframeParams :=
  if interval = "1m" then ⟨8, 10, 8, 21, 50, 20, 2⟩
  else if interval = "3m" then ⟨10, 12, 12, 26, 50, 30, 2⟩
  else if interval = "5m" then ⟨12, 14, 12, 26, 50, 40, 3⟩
  else if interval = "15m" then ⟨12, 14, 12, 26, 50, 50, 3⟩
  else if interval = "1h" then ⟨14, 14, 20, 50, 200, 50, 4⟩
  else if interval = "4h" then ⟨14, 14, 20, 50, 200, 50, 5⟩
  else if interval = "1d" then ⟨14, 14, 20, 50, 200, 50, 6⟩
  else defaultParams

/-- Source `interval.includes('m')` as used for the timeframe-sensitive
threshold switches. -/
def isMinuteInterval (interval : String) : Bool := interval.data.contains 'm'

/-- Source `calculateSlippage(price, side, atr)`. -/
def calculateSlippage (price : Rat) (side : String) (atr : Rat) : Rat :=
  let volatility := atr / price
  let slippagePercent := baseSlippage + volatility * volatilitySlippageMultiplier
  if side = "buy" then price * (1 + slippagePercent)
  else price * (1 - slippagePercent)

/-- Source `calculateStopSlippage(stopPrice, side, atr)`: the slippage-adjusted
fill price of a stop order; the long side is clamped at zero. -/
def calculateStopSlippage (stopPrice : Rat) (side : String) (atr : Rat) : Rat :=
  let slippage := atr * stopSlippageATRMultiplier
  if side = "long" then max 0 (stopPrice - slippage)
  else stopPrice + slippage

/-- Source `calculateLiquidationPrice(entryPrice, leverage, side)`. -/
def calculateLiquidationPrice (entryPrice leverage : Rat) (side : String) : Rat :=
  if side = "long" then entryPrice * (1 - 1 / leverage + maintenanceMarginRate)
  else entryPrice * (1 + 1 / leverage - maintenanceMarginRate)

/-- Source `calculateFundingCost(positionValue, hoursHeld, fundingRate = 0.0001)`:
`positionValue * fundingRate * floor(hoursHeld / 8)`.  The JS default
parameter `fundingRate = 0.0001` is passed explicitly by every caller
here, since no call site of the engine overrides it. -/
def calculateFundingCost (positionValue hoursHeld fundingRate : Rat) : Rat :=
  let fundingPeriods : Int := (hoursHeld / 8).floor
  positionValue * fundingRate * (fundingPeriods : Rat)

/-- Regime classification record `{ bull, bear, range }`. -/
structure Regime where
  bull  : Bool
  bear  : Bool
  range : Bool
  deriving Repr, DecidableEq

/-- Source `calculateDynamicTrailingStop(currentPrice, entryPrice, currentAtr,
position, regime)`; `position` is `1` for long and `-1` for short. -/
def calculateDynamicTrailingStop (currentPrice entryPrice currentAtr : Rat)
    (position : Int) (regime : Regime) : Rat :=
  let profitAmount := if position = 1 then currentPrice - entryPrice
                      else entryPrice - currentPrice
  let profitInATR := profitAmount / currentAtr
  let regimeType := if regime.bull then "bull" else if regime.bear then "bear" else "range"
  let multipliers := regimeMultipliers regimeType
  if profitInATR < profitThresholdATR then
    let stopDistance := initialStopATR * currentAtr * multipliers.initial
    if position = 1 then currentPrice - stopDistance else currentPrice + stopDistance
  else
    let trailATR := profitTiers.foldl
      (fun acc tier => if tier.profitATR ≤ profitInATR then tier.trailATR else acc)
      profitTrailingATR
    let trailATR := trailATR * multipliers.profit
    let stopDistance := trailATR * currentAtr
    if position = 1 then currentPrice - stopDistance else currentPrice + stopDistance

/-- Source `DataAnalysis.mean(arr)` (sum divided by length). -/
def mean (arr : List Rat) : Rat := arr.sum / (arr.length : Rat)

/-- Source `DataAnalysis.ema(data, period)`, value at index `i`: seeded with the
first element, recurrence `ema[i] = data[i]*k + ema[i-1]*(1-k)` with
`k = 2/(period+1)`. -/
def emaAt (values : List Rat) (period : Nat) : Nat → Rat
  | 0 => values.getD 0 0
  | i + 1 =>
    let k : Rat := 2 / ((period : Rat) + 1)
    values.getD (i + 1) 0 * k + emaAt values period i * (1 - k)

/-- True range at index `j` (the `t1/t2/t3` computation inside
`calculateATR`; for `j = 0` the two previous-close terms are `0`). -/
def trAt (data : List Candle) (j : Nat) : Rat :=
  let c := dAt data j
  let t1 := c.high - c.low
  let t2 := if 0 < j then |c.high - (dAt data (j-1)).close| else 0
  let t3 := if 0 < j then |c.low - (dAt data (j-1)).close| else 0
  max t1 (max t2 t3)

/-- Source `calculateATR(data, interval)[i]`: the simple mean of the trailing
`atrPeriod` true ranges, defined (`some`) exactly for
`atrPeriod ≤ i < data.length` and `NaN` (`none`) before that. -/
def atrAt (data : List Candle) (atrPeriod i : Nat) : Option Rat :=
  if atrPeriod ≤ i ∧ i < data.length then
    some (mean (((List.range atrPeriod).map (fun o => trAt data (i - atrPeriod + 1 + o)))))
  else none

/-- Sum of positive close-to-close changes over the RSI window ending at
`i` (the `gains` accumulator of `calculateRSI`). -/
def rsiGains (data : List Candle) (rsiPeriod i : Nat) : Rat :=
  ((List.range rsiPeriod).map (fun o =>
    let j := i - rsiPeriod + 1 + o
    let change := (dAt data j).close - (dAt data (j-1)).close
    if 0 < change then change else 0)).sum

/-- Sum of absolute non-positive close-to-close changes over the RSI
window ending at `i` (the `losses` accumulator of `calculateRSI`). -/
def rsiLosses (data : List Candle) (rsiPeriod i : Nat) : Rat :=
  ((List.range rsiPeriod).map (fun o =>
    let j := i - rsiPeriod + 1 + o
    let change := (dAt data j).close - (dAt data (j-1)).close
    if 0 < change then 0 else |change|)).sum

/-- Source `calculateRSI(data, interval)[i]` of `timeframe.cjs`: average gain and
loss are the plain window sums divided by the period (no Wilder
smoothing); RSI is `100` when the average loss is zero.  Defined
(`some`) exactly for `rsiPeriod ≤ i < data.length`. -/
def rsiAt (data : List Candle) (rsiPeriod i : Nat) : Option Rat :=
  if rsiPeriod ≤ i ∧ i < data.length then
    let avgGain := rsiGains data rsiPeriod i / (rsiPeriod : Rat)
    let avgLoss := rsiLosses data rsiPeriod i / (rsiPeriod : Rat)
    if avgLoss = 0 then some 100
    else
      let rs := avgGain / avgLoss
      some (100 - 100 / (1 + rs))
  else none

/-- Source `calculateEMA(data, period)[i]`: EMA over the close series. -/
def calculateEMAAt (data : List Candle) (period i : Nat) : Rat :=
  emaAt (data.map (·.close)) period i

/-- Closes `data[a..b)` as a list (`slice(a, b).map(d => d.close)`). -/
def closeSlice (data : List Candle) (a b : Nat) : List Rat :=
  ((data.drop a).take (b - a)).map (·.close)

/-- Source `detectRegime(data, interval)[i]`: percentage change over the
lookback plus trailing-SMA slope, with timeframe-sensitive thresholds;
bars before the lookback are `range`. -/
def regimeAt (data : List Candle) (interval : String) (regimeLookback i : Nat) : Regime :=
  if i < regimeLookback then ⟨false, false, true⟩
  else
    let priceChange := ((dAt data i).close - (dAt data (i - regimeLookback)).close)
      / (dAt data (i - regimeLookback)).close
    let sma := mean (closeSlice data (i - regimeLookback) (i + 1))
    let smaSlope :=
      if regimeLookback + 5 ≤ i then
        (sma - mean (closeSlice data (i - regimeLookback - 5) (i - 4))) / sma
      else 0
    let changeThreshold : Rat := if isMinuteInterval interval then 5/100 else 10/100
    let slopeThreshold : Rat := if isMinuteInterval interval then 2/1000 else 1/1000
    let bull := decide (changeThreshold < priceChange) && decide (slopeThreshold < smaSlope)
    let bear := decide (priceChange < -changeThreshold) && decide (smaSlope < -slopeThreshold)
    ⟨bull, bear, !bull && !bear⟩

/-- Source `Math.max(...xs)` over a list; the empty case (JS `-Infinity`) is
given an arbitrary value because every use in the engine is on a
non-empty window. -/
def listMax : List Rat → Rat
  | [] => 0
  | h :: t => t.foldl max h

/-- Source `Math.min(...xs)` over a list; the empty case (JS `Infinity`) is
given an arbitrary value because every use in the engine is on a
non-empty window. -/
def listMin : List Rat → Rat
  | [] => 0
  | h :: t => t.foldl min h

/-- Highs `data[a..b)` as a list. -/
def highSlice (data : List Candle) (a b : Nat) : List Rat :=
  ((data.drop a).take (b - a)).map (·.high)

/-- Lows `data[a..b)` as a list. -/
def lowSlice (data : List Candle) (a b : Nat) : List Rat :=
  ((data.drop a).take (b - a)).map (·.low)

/-- A per-bar signal.  Bars before the history floor produce the bare
`{long: false, short: false}` object; its indicator fields are
unobservable in the engine (the simulator checks `isNaN(signal.atr)`
first), and are modelled by `none` / defaults here. -/
structure Signal where
  long      : Bool
  short     : Bool
  atr       : Option Rat
  rsi       : Option Rat
  emaFast   : Rat
  emaMedium : Rat
  emaSlow   : Rat
  regime    : Regime
  deriving Repr, DecidableEq

/-- NaN-aware strict `<` on possibly-undefined values: any comparison
with an undefined (`NaN`) operand is false, as in JS. -/
def oLt (a : Option Rat) (b : Rat) : Bool :=
  match a with
  | none => false
  | some x => decide (x < b)

/-- NaN-aware strict `>` on possibly-undefined values. -/
def oGt (a : Option Rat) (b : Rat) : Bool :=
  match a with
  | none => false
  | some x => decide (b < x)

/-- NaN-aware strict `<` between two possibly-undefined values. -/
def oLt2 (a b : Option Rat) : Bool :=
  match a, b with
  | some x, some y => decide (x < y)
  | _, _ => false

/-- Source `generateSignals(data, strategyMode, interval)[i]`. -/
def signalAt (data : List Candle) (strategyMode interval : String) (i : Nat) : Signal :=
  let params := getTimeframeParams interval
  let atr := atrAt data params.atrPeriod i
  let rsi := rsiAt data params.rsiPeriod i
  let rsiPrev := rsiAt data params.rsiPeriod (i - 1)
  let emaFast := calculateEMAAt data params.emaFast i
  let emaMedium := calculateEMAAt data params.emaMedium i
  let emaSlow := calculateEMAAt data params.emaSlow i
  let regime := regimeAt data interval params.regimeLookback i
  let breakoutLookback : Nat := if isMinuteInterval interval then 10 else 20
  if i < max params.emaSlow params.regimeLookback then
    ⟨false, false, none, none, 0, 0, 0, ⟨false, false, true⟩⟩
  else
    let close := (dAt data i).close
    let prevClose := (dAt data (i-1)).close
    let recentHigh := if breakoutLookback ≤ i
      then listMax (highSlice data (i - breakoutLookback) i)
      else listMax (highSlice data 0 i)
    let recentLow := if breakoutLookback ≤ i
      then listMin (lowSlice data (i - breakoutLookback) i)
      else listMin (lowSlice data 0 i)
    let rsiOversold : Rat := if isMinuteInterval interval then 25 else 30
    let rsiOverbought : Rat := if isMinuteInterval interval then 75 else 70
    let rsiNeutralMin : Rat := if isMinuteInterval interval then 35 else 40
    let rsiNeutralMax : Rat := if isMinuteInterval interval then 65 else 60
    let ls_ss : Bool × Bool :=
      if strategyMode = "mean_reversion" then
        (oLt rsi rsiOversold && decide (emaSlow < close),
         oGt rsi rsiOverbought && decide (close < emaSlow))
      else if strategyMode = "momentum" then
        (decide (recentHigh < close) && oGt rsi 50 &&
           decide (emaSlow < close) && decide (emaMedium < emaFast),
         decide (close < recentLow) && oLt rsi 50 &&
           decide (close < emaSlow) && decide (emaFast < emaMedium))
      else if strategyMode = "pullback" then
        (decide (emaSlow < close) && decide (close < emaFast) &&
           oGt rsi rsiNeutralMin && oLt rsi rsiNeutralMax && oLt2 rsiPrev rsi,
         decide (close < emaSlow) && decide (emaFast < close) &&
           oGt rsi rsiNeutralMin && oLt rsi rsiNeutralMax && oLt2 rsi rsiPrev)
      else if strategyMode = "bear_market" then
        let shortOverbought := oGt rsi (if isMinuteInterval interval then 65 else 60) &&
          decide (close < emaSlow) && decide (emaFast < emaMedium)
        let shortFailedBreakout := decide (close < emaFast) &&
          decide (calculateEMAAt data params.emaFast (i-1) < prevClose) &&
          decide (close < emaSlow)
        let shortBreakdown := decide (close < recentLow) && decide (close < emaSlow)
        let longExtremeBounce := oLt rsi (if isMinuteInterval interval then 20 else 25) &&
          decide (prevClose < close) &&
          decide ((dAt data (i-1)).volume * (12/10) < (dAt data i).volume)
        (longExtremeBounce, shortOverbought || shortFailedBreakout || shortBreakdown)
      else
        let bullLong := regime.bull && decide (emaSlow < close) && decide (close < emaFast) &&
          oGt rsi rsiNeutralMin && oLt rsi rsiNeutralMax && oLt2 rsiPrev rsi
        let bearShort := regime.bear && oGt rsi (if isMinuteInterval interval then 65 else 60) &&
          decide (close < emaSlow) && decide (emaFast < emaMedium)
        let bearLong := regime.bear && oLt rsi (if isMinuteInterval interval then 20 else 25) &&
          decide (prevClose < close)
        let rangeLong := regime.range && oLt rsi rsiOversold
        let rangeShort := regime.range && oGt rsi rsiOverbought
        (bullLong || bearLong || rangeLong, bearShort || rangeShort)
    ⟨ls_ss.1, ls_ss.2, atr, rsi, emaFast, emaMedium, emaSlow, regime⟩

/-- Source `generateSignals(data, strategyMode, interval)` as a list, one signal
per candle. -/
def generateSignals (data : List Candle) (strategyMode interval : String) : List Signal :=
  (List.range data.length).map (signalAt data strategyMode interval)

/-- Source `getRegimeParameters(isBull, isBear, isRange)` result record
(position sizing only). -/
structure RegimeParams where
  positionSizePct : Rat
  minHoldBars     : Nat
  deriving Repr, DecidableEq

/-- Source `getRegimeParameters`: every branch currently returns
`{positionSizePct: 0.8, minHoldBars: 3}`. -/
def getRegimeParameters (isBull isBear _isRange : Bool) : RegimeParams :=
  if isBull then ⟨8/10, 3⟩
  else if isBear then ⟨8/10, 3⟩
  else ⟨8/10, 3⟩

/-- A completed trade record as pushed onto `trades`.  `return` is a Lean
keyword, so that field is called `ret`; the liquidation record carries no
`fundingCost`/`slippage` fields in the source, modelled by `none`; the
source stores `maxProfitATR` via `toFixed(2)` (string formatting), which
is modelled by the unformatted rational. -/
structure Trade where
  entryTime    : Nat
  exitTime     : Nat
  direction    : String
  entryPrice   : Rat
  exitPrice    : Rat
  barsHeld     : Nat
  pnl          : Rat
  ret          : Rat
  exitReason   : String
  regime       : String
  fundingCost  : Option Rat
  slippage     : Option Rat
  maxProfitATR : Rat
  deriving Repr, DecidableEq

/-- The mutable simulator state of `backtest` (capital, the at-most-one
open position, and the append-only trade/equity/regime logs). -/
structure BState where
  capital          : Rat
  position         : Int
  entryPrice       : Rat
  entryBar         : Nat
  trailingStop     : Rat
  positionQty      : Rat
  liquidationPrice : Rat
  maxProfitATR     : Rat
  trades           : List Trade
  equityCurve      : List Rat
  regimeLog        : List String
  deriving Repr, DecidableEq

/-- Initial simulator state. -/
def initState (cfg : Config) : BState :=
  ⟨cfg.initialCapital, 0, 0, 0, 0, 0, 0, 0, [], [], []⟩

/-- The liquidation trigger at bar `i`: an open position whose current
close has crossed the liquidation price. -/
def liqFires (s : BState) (currentPrice : Rat) : Prop :=
  s.position ≠ 0 ∧
    ((s.position = 1 ∧ currentPrice ≤ s.liquidationPrice) ∨
     (s.position = -1 ∧ s.liquidationPrice ≤ currentPrice))

instance (s : BState) (p : Rat) : Decidable (liqFires s p) := by
  unfold liqFires; infer_instance

/-- The regime tag string logged for a bar. -/
def regimeTag (regime : Regime) : String :=
  if regime.bull then "BULL" else if regime.bear then "BEAR" else "RANGE"

/-- The open-position management block of `backtest` (stop update, stop
merge, stop-hit exit) for one bar, given that the bar is not skipped and
liquidation did not fire.  `currentAtr` is the bar's defined ATR. -/
def manageOpen (cfg : Config) (data : List Candle) (s : BState) (i : Nat) (row : Candle)
    (currentAtr : Rat) (regime : Regime) : BState :=
  if s.position ≠ 0 then
    let currentPrice := row.close
    let barsHeld := i - s.entryBar
    let hoursHeld : Rat := (barsHeld : Rat) * (1/4)
    let profitAmount := if s.position = 1 then currentPrice - s.entryPrice
                        else s.entryPrice - currentPrice
    let profitInATR := profitAmount / currentAtr
    let maxProfitATR := max s.maxProfitATR profitInATR
    let newTrailingStop := calculateDynamicTrailingStop currentPrice s.entryPrice
      currentAtr s.position regime
    let trailingStop := if s.position = 1 then max s.trailingStop newTrailingStop
                        else min s.trailingStop newTrailingStop
    let stopHit := if s.position = 1 then currentPrice ≤ trailingStop
                   else trailingStop ≤ currentPrice
    if stopHit then
      let exitPrice := calculateStopSlippage trailingStop
        (if s.position = 1 then "long" else "short") currentAtr
      let pnl := if s.position = 1
        then (exitPrice - s.entryPrice) * s.positionQty * cfg.leverage
        else (s.entryPrice - exitPrice) * s.positionQty * cfg.leverage
      let exitFee := exitPrice * s.positionQty * cfg.leverage * cfg.takerFee
      let fundingCost := calculateFundingCost (exitPrice * s.positionQty * cfg.leverage) hoursHeld (1/10000)
      let netPnl := pnl - exitFee - fundingCost
      let exitReason := if profitThresholdATR < profitInATR then "profit_protection"
                        else "initial_stop"
      { s with
        capital := s.capital + netPnl,
        position := 0,
        trailingStop := trailingStop,
        maxProfitATR := 0,
        trades := s.trades ++ [{
          entryTime := (dAt data s.entryBar).timestamp,
          exitTime := row.timestamp,
          direction := if s.position = 1 then "long" else "short",
          entryPrice := s.entryPrice,
          exitPrice := exitPrice,
          barsHeld := barsHeld,
          pnl := netPnl,
          ret := netPnl / (s.entryPrice * s.positionQty),
          exitReason := exitReason,
          regime := regimeTag regime,
          fundingCost := some fundingCost,
          slippage := some |trailingStop - exitPrice|,
          maxProfitATR := maxProfitATR }] }
    else
      { s with trailingStop := trailingStop, maxProfitATR := maxProfitATR }
  else s

/-- The entry block of `backtest` for one bar: enter a long or short
position (with entry slippage, entry fee and fresh stop/liquidation
levels) when flat, capital remains, and the bar's signal fires. -/
def tryEnter (cfg : Config) (s : BState) (i : Nat) (row : Candle)
    (currentAtr : Rat) (signal : Signal) (params : RegimeParams) : BState :=
  if s.position = 0 ∧ 0 < s.capital then
    let currentPrice := row.close
    if signal.long then
      let tradeCapital := s.capital * params.positionSizePct
      let margin := tradeCapital
      let entryPrice := calculateSlippage currentPrice "buy" currentAtr
      let entryFee := margin * cfg.leverage * cfg.takerFee
      { s with
        entryPrice := entryPrice,
        positionQty := (margin - entryFee) / entryPrice,
        entryBar := i,
        position := 1,
        maxProfitATR := 0,
        trailingStop := calculateDynamicTrailingStop entryPrice entryPrice currentAtr 1
          signal.regime,
        liquidationPrice := calculateLiquidationPrice entryPrice cfg.leverage "long" }
    else if signal.short then
      let tradeCapital := s.capital * params.positionSizePct
      let margin := tradeCapital
      let entryPrice := calculateSlippage currentPrice "sell" currentAtr
      let entryFee := margin * cfg.leverage * cfg.takerFee
      { s with
        entryPrice := entryPrice,
        positionQty := (margin - entryFee) / entryPrice,
        entryBar := i,
        position := -1,
        maxProfitATR := 0,
        trailingStop := calculateDynamicTrailingStop entryPrice entryPrice currentAtr (-1)
          signal.regime,
        liquidationPrice := calculateLiquidationPrice entryPrice cfg.leverage "short" }
    else s
  else s

/-- The liquidation block of `backtest`: force-close at the liquidation
price, losing `entryPrice * positionQty`; the `continue` in the source
skips the equity-curve push for this bar. -/
def liquidate (s : BState) (i : Nat) (data : List Candle) (row : Candle)
    (regime : Regime) : BState :=
  let marginLost := s.entryPrice * s.positionQty
  { s with
    capital := s.capital - marginLost,
    position := 0,
    trades := s.trades ++ [{
      entryTime := (dAt data s.entryBar).timestamp,
      exitTime := row.timestamp,
      direction := if s.position = 1 then "long" else "short",
      entryPrice := s.entryPrice,
      exitPrice := s.liquidationPrice,
      barsHeld := i - s.entryBar,
      pnl := -marginLost,
      ret := -1,
      exitReason := "liquidation",
      regime := regimeTag regime,
      fundingCost := none,
      slippage := none,
      maxProfitATR := s.maxProfitATR }] }

/-- One iteration of the `backtest` bar loop: skip the bar when the ATR
is undefined (equity still appended), otherwise log the regime, check
liquidation (which `continue`s, skipping the equity push), manage the
open position, try to enter, and append the equity point. -/
def stepBar (cfg : Config) (data : List Candle) (strategyMode interval : String)
    (useRegimeParams : Bool) (s : BState) (i : Nat) : BState :=
  let row := dAt data i
  let signal := signalAt data strategyMode interval i
  let currentPrice := row.close
  match signal.atr with
  | none => { s with equityCurve := s.equityCurve ++ [s.capital] }
  | some currentAtr =>
    let params := if useRegimeParams
      then getRegimeParameters signal.regime.bull signal.regime.bear signal.regime.range
      else ⟨1/2, 3⟩
    let regime := signal.regime
    let s := { s with regimeLog := s.regimeLog ++ [regimeTag regime] }
    if liqFires s currentPrice then
      liquidate s i data row regime
    else
      let s := manageOpen cfg data s i row currentAtr regime
      let s := tryEnter cfg s i row currentAtr signal params
      { s with equityCurve := s.equityCurve ++ [s.capital] }

/-- The simulator state after the first `n` bars of the loop. -/
def loopState (cfg : Config) (data : List Candle) (strategyMode interval : String)
    (useRegimeParams : Bool) : Nat → BState
  | 0 => initState cfg
  | n + 1 => stepBar cfg data strategyMode interval useRegimeParams
      (loopState cfg data strategyMode interval useRegimeParams n) n

/-- The trailing "close any remaining position" block of `backtest`: an
`end_of_data` forced close at the last close price. -/
def endClose (cfg : Config) (data : List Candle) (s : BState) : BState :=
  if s.position ≠ 0 then
    let exitPrice := (dAt data (data.length - 1)).close
    let hoursHeld : Rat := ((data.length - s.entryBar : Nat) : Rat) * (1/4)
    let pnl := if s.position = 1
      then (exitPrice - s.entryPrice) * s.positionQty * cfg.leverage
      else (s.entryPrice - exitPrice) * s.positionQty * cfg.leverage
    let exitFee := exitPrice * s.positionQty * cfg.leverage * cfg.takerFee
    let fundingCost := calculateFundingCost (exitPrice * s.positionQty * cfg.leverage) hoursHeld (1/10000)
    let netPnl := pnl - exitFee - fundingCost
    { s with
      capital := s.capital + netPnl,
      position := 0,
      trades := s.trades ++ [{
        entryTime := (dAt data s.entryBar).timestamp,
        exitTime := (dAt data (data.length - 1)).timestamp,
        direction := if s.position = 1 then "long" else "short",
        entryPrice := s.entryPrice,
        exitPrice := exitPrice,
        barsHeld := data.length - s.entryBar,
        pnl := netPnl,
        ret := netPnl / (s.entryPrice * s.positionQty),
        exitReason := "end_of_data",
        regime := s.regimeLog.getLastD "",
        fundingCost := some fundingCost,
        slippage := none,
        maxProfitATR := s.maxProfitATR }] }
  else s

/-- Source `backtest(data, strategyMode, useRegimeParams, interval)`: run the
bar loop over the whole candle list, then force-close any remaining
position. -/
def backtest (cfg : Config) (data : List Candle) (strategyMode : String)
    (useRegimeParams : Bool) (interval : String) : BState :=
  endClose cfg data
    (loopState cfg data strategyMode interval useRegimeParams data.length)

/-- Per-regime trade statistics (`regimeStats` entries); the source
formats `winRate` through `toFixed(1) + '%'`, modelled by the unformatted
percentage. -/
structure RegimeStat where
  sum     : Rat
  mean    : Rat
  count   : Nat
  wins    : Nat
  winRate : Rat
  deriving Repr, DecidableEq

/-- The run report returned by `calculateMetrics`.  The zero-trade early
return produces a JS object carrying only the first nine fields; the
fields absent from it are modelled as `Option` values (`none` on that
branch).  Percentages and averages that the source formats as strings
via `toFixed` are modelled as unformatted rationals. -/
structure Metrics where
  totalTrades          : Nat
  winRate              : Rat
  totalReturn          : Rat
  maxDrawdown          : Rat
  sharpeRatio          : Rat
  avgSlippage          : Rat
  totalFundingCosts    : Rat
  liquidations         : Nat
  profitProtectedExits : Nat
  winningTrades        : Option Nat
  losingTrades         : Option Nat
  avgWin               : Option Rat
  avgLoss              : Option Rat
  profitFactor         : Option Rat
  totalPnl             : Option Rat
  finalCapital         : Option Rat
  buyHoldReturn        : Option Rat
  outperformance       : Option Rat
  regimeStats          : Option (List (String × RegimeStat))
  profitProtectionRate : Option Rat
  avgMaxProfitATR      : Option Rat
  deriving Repr, DecidableEq

/-- The maximum-drawdown scan of `calculateMetrics`: peak-so-far and the
most negative peak-to-trough fraction. -/
def maxDrawdownOf (equityCurve : List Rat) : Rat :=
  (equityCurve.foldl
    (fun acc equity =>
      let peak := if acc.1 < equity then equity else acc.1
      let drawdown := (equity - peak) / peak
      (peak, if drawdown < acc.2 then drawdown else acc.2))
    (equityCurve.getD 0 0, 0)).2

/-- Bar-to-bar equity returns (`returns` in `calculateMetrics`). -/
def equityReturns (equityCurve : List Rat) : List Rat :=
  (List.range (equityCurve.length - 1)).map
    (fun i => (equityCurve.getD (i+1) 0 - equityCurve.getD i 0) / equityCurve.getD i 0)

/-- Source `DataAnalysis.std`, parameterised by the numeric square-root routine
(JS `Math.sqrt`), which has no exact rational counterpart. -/
def std (sqrtFn : Rat → Rat) (arr : List Rat) : Rat :=
  let m := mean arr
  let variance := (arr.map (fun v => (v - m) ^ 2)).sum / (arr.length : Rat)
  sqrtFn variance

/-- The distinct `regime` tags of a trade list in order of first
occurrence (the key set of the `regimeStats` object). -/
def regimeKeys (trades : List Trade) : List String :=
  trades.foldl (fun ks t => if t.regime ∈ ks then ks else ks ++ [t.regime]) []

/-- The `regimeStats` record computed for one regime tag. -/
def regimeStatFor (trades : List Trade) (key : String) : RegimeStat :=
  let ts := trades.filter (fun t => t.regime = key)
  let sum := (ts.map (·.pnl)).sum
  let count := ts.length
  let wins := (ts.filter (fun t => 0 < t.pnl)).length
  ⟨sum, sum / (count : Rat), count, wins, (wins : Rat) / (count : Rat) * 100⟩

/-- Source `calculateMetrics(trades, equityCurve, data)`, parameterised by the
numeric square-root routine used for the standard deviation and the
`sqrt(252)` annualisation factor.  A `null`/empty trade list takes the
early return whose nine fields are all zero. -/
def calculateMetrics (cfg : Config) (sqrtFn : Rat → Rat) (trades : List Trade)
    (equityCurve : List Rat) (data : List Candle) : Metrics :=
  if trades.length = 0 then
    ⟨0, 0, 0, 0, 0, 0, 0, 0, 0,
     none, none, none, none, none, none, none, none, none, none, none, none⟩
  else
    let totalTrades := trades.length
    let winningTrades := (trades.filter (fun t => 0 < t.pnl)).length
    let winRate := (winningTrades : Rat) / (totalTrades : Rat)
    let liquidations := (trades.filter (fun t => t.exitReason = "liquidation")).length
    let profitProtectedExits :=
      (trades.filter (fun t => t.exitReason = "profit_protection")).length
    let totalPnl := (trades.map (·.pnl)).sum
    let totalReturn := (equityCurve.getLastD 0 - cfg.initialCapital) / cfg.initialCapital
    let wins := (trades.filter (fun t => 0 < t.pnl)).map (·.pnl)
    let losses := (trades.filter (fun t => t.pnl < 0)).map (·.pnl)
    let avgWin := if 0 < wins.length then mean wins else 0
    let avgLoss := if 0 < losses.length then mean losses else 0
    let totalFundingCosts := (trades.map (fun t => t.fundingCost.getD 0)).sum
    let slippagey := trades.filter (fun t => t.slippage ≠ none ∧ t.slippage ≠ some 0)
    let avgSlippage := if 0 < slippagey.length
      then mean (slippagey.map (fun t => |t.slippage.getD 0|)) else 0
    let maxDrawdown := maxDrawdownOf equityCurve
    let returns := equityReturns equityCurve
    let meanReturn := mean returns
    let stdReturn := std sqrtFn returns
    let sharpeRatio := if 0 < returns.length ∧ stdReturn ≠ 0
      then meanReturn / stdReturn * sqrtFn 252 else 0
    let buyHoldReturn := ((dAt data (data.length - 1)).close - (dAt data 0).close)
      / (dAt data 0).close
    let regimeStats := (regimeKeys trades).map (fun k => (k, regimeStatFor trades k))
    let profitFactor := if 0 < wins.length ∧ 0 < losses.length
      then |wins.sum / losses.sum| else 0
    let avgMaxProfitATR := mean (trades.map (·.maxProfitATR))
    ⟨totalTrades, winRate, totalReturn, maxDrawdown, sharpeRatio, avgSlippage,
     totalFundingCosts, liquidations, profitProtectedExits,
     some winningTrades, some (totalTrades - winningTrades),
     some avgWin, some avgLoss, some profitFactor, some totalPnl,
     some (equityCurve.getLastD 0), some buyHoldReturn,
     some (totalReturn - buyHoldReturn), some regimeStats,
     some ((profitProtectedExits : Rat) / (totalTrades : Rat) * 100),
     some avgMaxProfitATR⟩

/-! ### Concrete runs used to settle claims

`crashData` is an 83-candle `1m` series: a steady rise to 520, a short
dip that drives the 8-bar RSI to 0 at bar 50 while the close stays far
above the 50-bar EMA (so `mean_reversion` enters long at bar 50), a flat
shelf at 512 long enough to hold the position for 32 bars, and a crash to
2 at bar 82 that crosses the liquidation price (≈ 2.0486 at leverage 1).
`bothSignalsData` is a 51-candle `1m` series whose bar 49 candles carry a
malformed `low` far above the close, driving `bear_market`'s breakdown
and extreme-bounce predicates simultaneously at bar 50. -/

/-- Demo constructor arguments: `initialCapital = 1000`, `leverage = 1`,
default fees. -/
def demoConfig : Config := ⟨1000, 1, 2/10000, 4/10000⟩

/-- Close prices of the liquidation scenario. -/
def crashClose (j : Nat) : Rat :=
  if j ≤ 42 then 100 + 10 * j
  else if j ≤ 50 then 520 - ((j : Rat) - 42)
  else if j ≤ 81 then 512
  else 2

/-- Candles of the liquidation scenario. -/
def crashCandle (j : Nat) : Candle :=
  ⟨j, crashClose j, crashClose j + 1, crashClose j - 1, crashClose j, 1⟩

/-- The liquidation scenario: 83 one-minute candles. -/
def crashData : List Candle := (List.range 83).map crashCandle

/-- The completed backtest over the liquidation scenario. -/
def crashRun : BState := backtest demoConfig crashData "mean_reversion" true "1m"

/-- A placeholder trade used as the default of list accesses in concrete
statements (never returned by in-range accesses). -/
def dummyTrade : Trade := ⟨0, 0, "", 0, 0, 0, 0, 0, "", "", none, none, 0⟩

/-- Close prices of the malformed-candle scenario. -/
def bothSignalsClose (j : Nat) : Rat :=
  if j ≤ 42 then 1000
  else if j ≤ 49 then 1000 - 100 * ((j : Rat) - 42)
  else 301

/-- Candles of the malformed-candle scenario: bars 40–49 carry a `low`
of 100000, above their own close. -/
def bothSignalsCandle (j : Nat) : Candle :=
  ⟨j, bothSignalsClose j, bothSignalsClose j + 1,
   if 40 ≤ j ∧ j ≤ 49 then 100000 else bothSignalsClose j - 1,
   bothSignalsClose j,
   if j = 50 then 2 else 1⟩

/-- The malformed-candle scenario: 51 one-minute candles. -/
def bothSignalsData : List Candle := (List.range 51).map bothSignalsCandle

/-! ### Reference RSI definitions for claim C8 -/

/-- Wilder-smoothed average gain and loss, written from the spec's words
("Wilder-style smoothed average gain/loss over `period`; each new
average `= (previous average * (period - 1) + current gain or loss) /
period`", seeded with the plain averages of the first `period` changes).
Argument `n` addresses index `period + n` of the close series. -/
def wilderAvgs (closes : List Rat) (period : Nat) : Nat → Rat × Rat
  | 0 =>
    let gains := ((List.range period).map (fun o =>
      let change := closes.getD (o+1) 0 - closes.getD o 0
      if 0 < change then change else 0)).sum
    let losses := ((List.range period).map (fun o =>
      let change := closes.getD (o+1) 0 - closes.getD o 0
      if 0 < change then 0 else |change|)).sum
    (gains / (period : Rat), losses / (period : Rat))
  | n + 1 =>
    let (avgGain, avgLoss) := wilderAvgs closes period n
    let change := closes.getD (period + n + 1) 0 - closes.getD (period + n) 0
    let gain := if 0 < change then change else 0
    let loss := if change < 0 then |change| else 0
    ((avgGain * ((period : Rat) - 1) + gain) / (period : Rat),
     (avgLoss * ((period : Rat) - 1) + loss) / (period : Rat))

/-- The RSI the spec describes: Wilder-smoothed averages, with value
`100` whenever the smoothed average loss is exactly zero. -/
def specWilderRSI (closes : List Rat) (period i : Nat) : Option Rat :=
  if period ≤ i ∧ i < closes.length then
    let (avgGain, avgLoss) := wilderAvgs closes period (i - period)
    if avgLoss = 0 then some 100
    else some (100 - 100 / (1 + avgGain / avgLoss))
  else none

/-- Source `calculateRSI(data, period)` of `src/trailingStopLoss.cjs`: the
Wilder recurrence over a plain close series, with NO zero-loss guard.
Its `100 - 100/(1 + avgGain/avgLoss)` at `avgLoss = 0` follows IEEE
semantics: `avgGain > 0` gives `rs = Infinity` and RSI `100`;
`avgGain = 0` gives `rs = NaN` and an RSI of `NaN`, modelled `none`.
Indices below `period` are `null` (`none`), and a series shorter than
`period + 1` is all `null`. -/
def tslCalculateRSI (closes : List Rat) (period i : Nat) : Option Rat :=
  if closes.length < period + 1 then none
  else if period ≤ i ∧ i < closes.length then
    let (avgGain, avgLoss) := wilderAvgs closes period (i - period)
    if avgLoss = 0 then
      if avgGain = 0 then none else some 100
    else some (100 - 100 / (1 + avgGain / avgLoss))
  else none

/-- Closes on which Cutler-style and Wilder-style RSI differ at index 3
with period 2. -/
def rsiDemoCloses : List Rat := [0, 8, 8, 2]

/-- The same closes wrapped as candles for `timeframe.cjs`'s
`calculateRSI` (which reads `data[j].close`). -/
def rsiDemoData : List Candle :=
  rsiDemoCloses.map (fun c => ⟨0, c, c, c, c, 1⟩)

/-! ## Theorems -/

/-- C10: for `stopPrice ≥ 0` and `atr ≥ 0`, the slippage-adjusted
stop-exit price of a Long equals `max(0, stopPrice - 0.3*atr)` — so it is
never negative and collapses to `0` whenever `stopPrice < 0.3*atr` —
while the Short side is `stopPrice + 0.3*atr` with no clamp. -/
theorem c10_stop_slippage_clamp (stopPrice atr : Rat)
    (hs : 0 ≤ stopPrice) (ha : 0 ≤ atr) :
    calculateStopSlippage stopPrice "long" atr = max 0 (stopPrice - atr * (3/10))
      ∧ 0 ≤ calculateStopSlippage stopPrice "long" atr
      ∧ (stopPrice < atr * (3/10) → calculateStopSlippage stopPrice "long" atr = 0)
      ∧ calculateStopSlippage stopPrice "short" atr = stopPrice + atr * (3/10) := by
  unfold calculateStopSlippage stopSlippageATRMultiplier
  refine ⟨by rw [if_pos rfl], ?_, fun h => ?_,
    by rw [if_neg (by decide : ¬(("short" : String) = "long"))]⟩
  · rw [if_pos rfl]
    exact le_max_left 0 _
  · rw [if_pos rfl, max_eq_left (by linarith)]

/-- Witness for C10 at `stopPrice = 1`, `atr = 10`. -/
theorem c10_stop_slippage_clamp_witness :
    calculateStopSlippage 1 "long" 10 = max 0 ((1:Rat) - 10 * (3/10))
      ∧ 0 ≤ calculateStopSlippage 1 "long" 10
      ∧ ((1:Rat) < 10 * (3/10) → calculateStopSlippage 1 "long" 10 = 0)
      ∧ calculateStopSlippage 1 "short" 10 = 1 + 10 * (3/10) :=
  c10_stop_slippage_clamp 1 10 (by norm_num) (by norm_num)

/-- C2: for positive `atr`, writing `profitATR` for the signed profit in
ATR units, the candidate stop is `price ∓ 2.0*atr*regimeMultiplier.initial`
when `profitATR < 0.5`, and otherwise `price ∓ t*regimeMultiplier.profit*atr`
where `t` is the `trailATR` of the highest tier of
`{(0.5,1.0), (1.5,0.75), (3.0,0.5)}` whose threshold `profitATR` has
reached — in particular a profit in `[1.5, 3)` (tier 2 but not tier 3)
uses exactly `0.75`.  (The base multiplier `1.0` coincides with tier 1's,
which is always reached in the `≥ 0.5` branch.) -/
theorem c2_trailing_stop_tiers (price entry atr : Rat) (regime : Regime)
    (ha : 0 < atr) :
    (((price - entry) / atr < 1/2 →
        calculateDynamicTrailingStop price entry atr 1 regime
          = price - initialStopATR * atr * (regimeMultipliers
              (if regime.bull then "bull" else if regime.bear then "bear" else "range")).initial)
      ∧ (1/2 ≤ (price - entry) / atr → (price - entry) / atr < 3/2 →
        calculateDynamicTrailingStop price entry atr 1 regime
          = price - 1 * (regimeMultipliers
              (if regime.bull then "bull" else if regime.bear then "bear" else "range")).profit * atr)
      ∧ (3/2 ≤ (price - entry) / atr → (price - entry) / atr < 3 →
        calculateDynamicTrailingStop price entry atr 1 regime
          = price - 3/4 * (regimeMultipliers
              (if regime.bull then "bull" else if regime.bear then "bear" else "range")).profit * atr)
      ∧ (3 ≤ (price - entry) / atr →
        calculateDynamicTrailingStop price entry atr 1 regime
          = price - 1/2 * (regimeMultipliers
              (if regime.bull then "bull" else if regime.bear then "bear" else "range")).profit * atr))
    ∧ (((entry - price) / atr < 1/2 →
        calculateDynamicTrailingStop price entry atr (-1) regime
          = price + initialStopATR * atr * (regimeMultipliers
              (if regime.bull then "bull" else if regime.bear then "bear" else "range")).initial)
      ∧ (1/2 ≤ (entry - price) / atr → (entry - price) / atr < 3/2 →
        calculateDynamicTrailingStop price entry atr (-1) regime
          = price + 1 * (regimeMultipliers
              (if regime.bull then "bull" else if regime.bear then "bear" else "range")).profit * atr)
      ∧ (3/2 ≤ (entry - price) / atr → (entry - price) / atr < 3 →
        calculateDynamicTrailingStop price entry atr (-1) regime
          = price + 3/4 * (regimeMultipliers
              (if regime.bull then "bull" else if regime.bear then "bear" else "range")).profit * atr)
      ∧ (3 ≤ (entry - price) / atr →
        calculateDynamicTrailingStop price entry atr (-1) regime
          = price + 1/2 * (regimeMultipliers
              (if regime.bull then "bull" else if regime.bear then "bear" else "range")).profit * atr)) := by
  unfold calculateDynamicTrailingStop profitThresholdATR profitTrailingATR
  simp only [profitTiers, List.foldl, show ((1:Int) = 1) = True from by simp,
    show ((-1:Int) = 1) = False from by decide, if_true, if_false]
  refine ⟨⟨fun h => ?_, fun h1 h2 => ?_, fun h1 h2 => ?_, fun h1 => ?_⟩,
          ⟨fun h => ?_, fun h1 h2 => ?_, fun h1 h2 => ?_, fun h1 => ?_⟩⟩
  · rw [if_pos h]
  · rw [if_neg (by linarith), if_neg (by linarith), if_neg (by linarith), if_pos h1]
  · rw [if_neg (by linarith), if_neg (by linarith), if_pos h1]
  · rw [if_neg (by linarith), if_pos h1]
  · rw [if_pos h]
  · rw [if_neg (by linarith), if_neg (by linarith), if_neg (by linarith), if_pos h1]
  · rw [if_neg (by linarith), if_neg (by linarith), if_pos h1]
  · rw [if_neg (by linarith), if_pos h1]

/-- Witness for C2: at `price = 102`, `entry = 100`, `atr = 1` in a
Range regime, the profit of 2 ATR qualifies for tier 2 but not tier 3,
and the candidate stop is `102 - 0.75 * 0.8 * 1 = 101.4`. -/
theorem c2_trailing_stop_tiers_witness :
    calculateDynamicTrailingStop 102 100 1 1 ⟨false, false, true⟩ = 507/5 := by
  have h := (c2_trailing_stop_tiers 102 100 1 ⟨false, false, true⟩
    (by norm_num)).1.2.2.1 (by norm_num) (by norm_num)
  rw [h]; decide

/-- C9: a run with zero trades yields a report whose `totalTrades` and
every derived ratio (`winRate`, `totalReturn`, `maxDrawdown`,
`sharpeRatio`, `avgSlippage`, `totalFundingCosts`, `liquidations`,
`profitProtectedExits`) are all zero, for every equity curve, candle
list, configuration and square-root routine — the early return fires
before any division can occur. -/
theorem c9_zero_trades_metrics (cfg : Config) (sqrtFn : Rat → Rat)
    (equityCurve : List Rat) (data : List Candle) :
    calculateMetrics cfg sqrtFn [] equityCurve data
      = ⟨0, 0, 0, 0, 0, 0, 0, 0, 0,
         none, none, none, none, none, none, none, none, none, none, none, none⟩ := rfl

/-- While a long position is open, the per-bar stop update merges the
fresh candidate with `max`, whether or not the stop is then hit. -/
theorem manageOpen_trailingStop_long (cfg : Config) (data : List Candle) (s : BState)
    (i : Nat) (row : Candle) (currentAtr : Rat) (regime : Regime)
    (h : s.position = 1) :
    (manageOpen cfg data s i row currentAtr regime).trailingStop
      = max s.trailingStop
          (calculateDynamicTrailingStop row.close s.entryPrice currentAtr 1 regime) := by
  unfold manageOpen
  rw [if_pos (by rw [h]; decide)]
  simp only [h, if_pos rfl, ite_true]
  split_ifs <;> rfl

/-- While a short position is open, the per-bar stop update merges the
fresh candidate with `min`, whether or not the stop is then hit. -/
theorem manageOpen_trailingStop_short (cfg : Config) (data : List Candle) (s : BState)
    (i : Nat) (row : Candle) (currentAtr : Rat) (regime : Regime)
    (h : s.position = -1) :
    (manageOpen cfg data s i row currentAtr regime).trailingStop
      = min s.trailingStop
          (calculateDynamicTrailingStop row.close s.entryPrice currentAtr (-1) regime) := by
  unfold manageOpen
  rw [if_pos (by rw [h]; decide)]
  simp only [h, show ((-1 : Int) = 1) = False from by decide, if_false, ite_false]
  split_ifs <;> rfl

/-- The entry block never touches the trade log. -/
theorem tryEnter_trades (cfg : Config) (s : BState) (i : Nat) (row : Candle)
    (currentAtr : Rat) (signal : Signal) (params : RegimeParams) :
    (tryEnter cfg s i row currentAtr signal params).trades = s.trades := by
  simp only [tryEnter]
  split_ifs <;> rfl

/-- The entry block is inert while a position is open. -/
theorem tryEnter_of_position_ne (cfg : Config) (s : BState) (i : Nat) (row : Candle)
    (currentAtr : Rat) (signal : Signal) (params : RegimeParams)
    (h : s.position ≠ 0) :
    tryEnter cfg s i row currentAtr signal params = s := by
  simp only [tryEnter]
  rw [if_neg (fun hc => h hc.1)]

/-- If the open-position block appended no trade, the stop was not hit
and the position (and capital, entry data and quantity) are unchanged. -/
theorem manageOpen_of_trades_eq (cfg : Config) (data : List Candle) (s : BState)
    (i : Nat) (row : Candle) (currentAtr : Rat) (regime : Regime)
    (h : (manageOpen cfg data s i row currentAtr regime).trades = s.trades) :
    (manageOpen cfg data s i row currentAtr regime).position = s.position
      ∧ (manageOpen cfg data s i row currentAtr regime).capital = s.capital := by
  simp only [manageOpen] at h ⊢
  split_ifs at h ⊢ <;>
    first
      | exact ⟨rfl, rfl⟩
      | (exfalso; have := congrArg List.length h; simp at this)

/-- The liquidation block appends exactly one trade. -/
theorem liquidate_trades (s : BState) (i : Nat) (data : List Candle) (row : Candle)
    (regime : Regime) :
    (liquidate s i data row regime).trades.length = s.trades.length + 1 := by
  simp [liquidate]

/-- C1: the persisted stop is monotone over a position's life.  On every
bar on which a position is open, the open-position block merges the fresh
candidate monotonically — `max` for a Long, `min` for a Short — so the
stored stop never loosens, even when the unmerged candidate is wider;
and at the level of a whole bar step, whenever an open position's bar
closes no trade (so the same position is still open afterwards — a
liquidation, stop exit or re-entry would append a trade), the persisted
stop is non-decreasing for a Long and non-increasing for a Short. -/
theorem c1_trailing_stop_monotone (cfg : Config) (data : List Candle)
    (strategyMode interval : String) (useRegimeParams : Bool)
    (s : BState) (i : Nat) (row : Candle) (currentAtr : Rat) (regime : Regime) :
    ((s.position = 1 →
        s.trailingStop ≤ (manageOpen cfg data s i row currentAtr regime).trailingStop)
      ∧ (s.position = -1 →
        (manageOpen cfg data s i row currentAtr regime).trailingStop ≤ s.trailingStop))
    ∧ (s.position ≠ 0 →
        (stepBar cfg data strategyMode interval useRegimeParams s i).trades = s.trades →
        ((s.position = 1 →
            s.trailingStop
              ≤ (stepBar cfg data strategyMode interval useRegimeParams s i).trailingStop)
          ∧ (s.position = -1 →
            (stepBar cfg data strategyMode interval useRegimeParams s i).trailingStop
              ≤ s.trailingStop))) := by
  refine ⟨⟨fun h => ?_, fun h => ?_⟩, fun hpos htr => ?_⟩
  · rw [manageOpen_trailingStop_long cfg data s i row currentAtr regime h]
    exact le_max_left _ _
  · rw [manageOpen_trailingStop_short cfg data s i row currentAtr regime h]
    exact min_le_left _ _
  · unfold stepBar at htr ⊢
    cases hatr : (signalAt data strategyMode interval i).atr with
    | none =>
      simp only [hatr] at htr ⊢
      exact ⟨fun _ => le_refl _, fun _ => le_refl _⟩
    | some a =>
      simp only [hatr] at htr ⊢
      by_cases hliq : liqFires { s with regimeLog := s.regimeLog
          ++ [regimeTag (signalAt data strategyMode interval i).regime] }
          (dAt data i).close
      · rw [if_pos hliq] at htr
        exfalso
        have := liquidate_trades { s with regimeLog := s.regimeLog
          ++ [regimeTag (signalAt data strategyMode interval i).regime] } i data
          (dAt data i) (signalAt data strategyMode interval i).regime
        rw [htr] at this
        simp at this
      · rw [if_neg hliq] at htr ⊢
        have htre := tryEnter_trades cfg
          (manageOpen cfg data { s with regimeLog := s.regimeLog
            ++ [regimeTag (signalAt data strategyMode interval i).regime] } i
            (dAt data i) a (signalAt data strategyMode interval i).regime)
          i (dAt data i) a (signalAt data strategyMode interval i)
          (if useRegimeParams then getRegimeParameters
            (signalAt data strategyMode interval i).regime.bull
            (signalAt data strategyMode interval i).regime.bear
            (signalAt data strategyMode interval i).regime.range
           else ⟨1/2, 3⟩)
        simp only at htr
        rw [htre] at htr
        have hmo := manageOpen_of_trades_eq cfg data { s with regimeLog := s.regimeLog
          ++ [regimeTag (signalAt data strategyMode interval i).regime] } i
          (dAt data i) a (signalAt data strategyMode interval i).regime htr
        have hent := tryEnter_of_position_ne cfg
          (manageOpen cfg data { s with regimeLog := s.regimeLog
            ++ [regimeTag (signalAt data strategyMode interval i).regime] } i
            (dAt data i) a (signalAt data strategyMode interval i).regime)
          i (dAt data i) a (signalAt data strategyMode interval i)
          (if useRegimeParams then getRegimeParameters
            (signalAt data strategyMode interval i).regime.bull
            (signalAt data strategyMode interval i).regime.bear
            (signalAt data strategyMode interval i).regime.range
           else ⟨1/2, 3⟩)
          (by rw [hmo.1]; exact hpos)
        refine ⟨fun h => ?_, fun h => ?_⟩
        · have hmax := manageOpen_trailingStop_long cfg data
            { s with regimeLog := s.regimeLog
              ++ [regimeTag (signalAt data strategyMode interval i).regime] }
            i (dAt data i) a (signalAt data strategyMode interval i).regime h
          simp only [hent, hmax]
          exact le_max_left _ _
        · have hmin := manageOpen_trailingStop_short cfg data
            { s with regimeLog := s.regimeLog
              ++ [regimeTag (signalAt data strategyMode interval i).regime] }
            i (dAt data i) a (signalAt data strategyMode interval i).regime h
          simp only [hent, hmin]
          exact min_le_left _ _

/-- Witness for C1: a concrete open long at entry 100 with stop 95; the
bar at close 101 with ATR 1 merges a candidate of 99 and tightens the
stop, so the new stop is at least the old 95. -/
theorem c1_trailing_stop_monotone_witness :
    (⟨1000, 1, 100, 0, 95, 1, 90, 0, [], [], []⟩ : BState).trailingStop
      ≤ (manageOpen demoConfig [] ⟨1000, 1, 100, 0, 95, 1, 90, 0, [], [], []⟩ 1
          ⟨0, 101, 102, 100, 101, 1⟩ 1 ⟨false, false, true⟩).trailingStop :=
  (c1_trailing_stop_monotone demoConfig [] "adaptive" "1h" true
    ⟨1000, 1, 100, 0, 95, 1, 90, 0, [], [], []⟩ 1
    ⟨0, 101, 102, 100, 101, 1⟩ 1 ⟨false, false, true⟩).1.1 rfl

/-- The liquidation-price bookkeeping invariant: while a position is
open, the stored liquidation price is the one computed at entry by
`calculateLiquidationPrice` from the stored entry price. -/
def LiqInv (cfg : Config) (s : BState) : Prop :=
  (s.position = 1 →
    s.liquidationPrice = calculateLiquidationPrice s.entryPrice cfg.leverage "long")
  ∧ (s.position = -1 →
    s.liquidationPrice = calculateLiquidationPrice s.entryPrice cfg.leverage "short")

instance (cfg : Config) (s : BState) : Decidable (LiqInv cfg s) := by
  unfold LiqInv; infer_instance

/-- Well-formedness of logged liquidation trades: return `-1` and an exit
at the liquidation price derived from the trade's own entry price. -/
def TradesLiqOK (cfg : Config) (trades : List Trade) : Prop :=
  ∀ t ∈ trades, t.exitReason = "liquidation" →
    t.ret = -1
      ∧ t.exitPrice = calculateLiquidationPrice t.entryPrice cfg.leverage t.direction

instance (cfg : Config) (trades : List Trade) : Decidable (TradesLiqOK cfg trades) := by
  unfold TradesLiqOK; infer_instance

/-- The liquidation block leaves the simulator flat, so the
liquidation-price invariant holds vacuously afterwards. -/
theorem liqInv_liquidate (cfg : Config) (s : BState) (i : Nat) (data : List Candle)
    (row : Candle) (regime : Regime) :
    LiqInv cfg (liquidate s i data row regime) := by
  simp [LiqInv, liquidate]

/-- The trade appended by the liquidation block is well-formed, given the
invariant and that liquidation actually fired. -/
theorem tradesLiqOK_liquidate (cfg : Config) (s : BState) (i : Nat) (data : List Candle)
    (row : Candle) (regime : Regime)
    (hinv : LiqInv cfg s) (hok : TradesLiqOK cfg s.trades)
    (hliq : liqFires s row.close) :
    TradesLiqOK cfg (liquidate s i data row regime).trades := by
  intro t ht hreason
  simp only [liquidate, List.mem_append, List.mem_singleton] at ht
  rcases ht with ht | ht
  · exact hok t ht hreason
  · subst ht
    refine ⟨rfl, ?_⟩
    rcases hliq.2 with ⟨h1, _⟩ | ⟨h1, _⟩
    · show s.liquidationPrice = calculateLiquidationPrice s.entryPrice cfg.leverage
        (if s.position = 1 then "long" else "short")
      rw [if_pos h1]
      exact hinv.1 h1
    · show s.liquidationPrice = calculateLiquidationPrice s.entryPrice cfg.leverage
        (if s.position = 1 then "long" else "short")
      rw [if_neg (by rw [h1]; decide)]
      exact hinv.2 h1

/-- The open-position block preserves the liquidation-price invariant and
appends only non-liquidation trades. -/
theorem liqInv_manageOpen (cfg : Config) (data : List Candle) (s : BState) (i : Nat)
    (row : Candle) (currentAtr : Rat) (regime : Regime)
    (hinv : LiqInv cfg s) (hok : TradesLiqOK cfg s.trades) :
    LiqInv cfg (manageOpen cfg data s i row currentAtr regime)
      ∧ TradesLiqOK cfg (manageOpen cfg data s i row currentAtr regime).trades := by
  simp only [manageOpen]
  split_ifs <;>
    first
      | exact ⟨hinv, hok⟩
      | (refine ⟨⟨fun h => by simp at h, fun h => by simp at h⟩, ?_⟩
         intro t ht hreason
         simp only [List.mem_append, List.mem_singleton] at ht
         rcases ht with ht | ht
         · exact hok t ht hreason
         · subst ht
           simp at hreason)

/-- The entry block establishes the liquidation-price invariant and
leaves the trade log untouched. -/
theorem liqInv_tryEnter (cfg : Config) (s : BState) (i : Nat) (row : Candle)
    (currentAtr : Rat) (signal : Signal) (params : RegimeParams)
    (hinv : LiqInv cfg s) :
    LiqInv cfg (tryEnter cfg s i row currentAtr signal params) := by
  simp only [tryEnter]
  split_ifs
  · exact ⟨fun _ => rfl, fun h => by simp at h⟩
  · exact ⟨fun h => by simp at h, fun _ => rfl⟩
  · exact hinv
  · exact hinv

/-- One bar step preserves the liquidation-price invariant and the
well-formedness of logged liquidation trades. -/
theorem liqInv_stepBar (cfg : Config) (data : List Candle)
    (strategyMode interval : String) (useRegimeParams : Bool) (s : BState) (i : Nat)
    (hinv : LiqInv cfg s) (hok : TradesLiqOK cfg s.trades) :
    LiqInv cfg (stepBar cfg data strategyMode interval useRegimeParams s i)
      ∧ TradesLiqOK cfg
          (stepBar cfg data strategyMode interval useRegimeParams s i).trades := by
  unfold stepBar
  cases hatr : (signalAt data strategyMode interval i).atr with
  | none =>
    simp only [hatr]
    exact ⟨hinv, hok⟩
  | some a =>
    simp only [hatr]
    have hinv1 : LiqInv cfg { s with regimeLog := s.regimeLog
        ++ [regimeTag (signalAt data strategyMode interval i).regime] } := hinv
    have hok1 : TradesLiqOK cfg ({ s with regimeLog := s.regimeLog
        ++ [regimeTag (signalAt data strategyMode interval i).regime] } : BState).trades := hok
    by_cases hliq : liqFires { s with regimeLog := s.regimeLog
        ++ [regimeTag (signalAt data strategyMode interval i).regime] } (dAt data i).close
    · rw [if_pos hliq]
      exact ⟨liqInv_liquidate cfg _ i data _ _,
        tradesLiqOK_liquidate cfg _ i data _ _ hinv1 hok1 hliq⟩
    · rw [if_neg hliq]
      have hmo := liqInv_manageOpen cfg data _ i (dAt data i) a
        (signalAt data strategyMode interval i).regime hinv1 hok1
      have hte := liqInv_tryEnter cfg _ i (dAt data i) a
        (signalAt data strategyMode interval i)
        (if useRegimeParams then getRegimeParameters
          (signalAt data strategyMode interval i).regime.bull
          (signalAt data strategyMode interval i).regime.bear
          (signalAt data strategyMode interval i).regime.range
         else ⟨1/2, 3⟩) hmo.1
      have htOK : TradesLiqOK cfg (tryEnter cfg
          (manageOpen cfg data { s with regimeLog := s.regimeLog
            ++ [regimeTag (signalAt data strategyMode interval i).regime] } i
            (dAt data i) a (signalAt data strategyMode interval i).regime)
          i (dAt data i) a (signalAt data strategyMode interval i)
          (if useRegimeParams then getRegimeParameters
            (signalAt data strategyMode interval i).regime.bull
            (signalAt data strategyMode interval i).regime.bear
            (signalAt data strategyMode interval i).regime.range
           else ⟨1/2, 3⟩)).trades := by
        rw [tryEnter_trades]
        exact hmo.2
      exact ⟨hte, htOK⟩

/-- The loop preserves the liquidation invariants from the start. -/
theorem liqInv_loopState (cfg : Config) (data : List Candle)
    (strategyMode interval : String) (useRegimeParams : Bool) :
    ∀ n, LiqInv cfg (loopState cfg data strategyMode interval useRegimeParams n)
      ∧ TradesLiqOK cfg (loopState cfg data strategyMode interval useRegimeParams n).trades
  | 0 => by
    refine ⟨⟨fun h => ?_, fun h => ?_⟩, fun t ht => ?_⟩
    · simp [loopState, initState] at h
    · simp [loopState, initState] at h
    · simp [loopState, initState] at ht
  | n + 1 => by
    have ih := liqInv_loopState cfg data strategyMode interval useRegimeParams n
    exact liqInv_stepBar cfg data strategyMode interval useRegimeParams _ n ih.1 ih.2

/-- The end-of-data close appends only an `end_of_data` trade, so logged
liquidation trades stay well-formed. -/
theorem tradesLiqOK_endClose (cfg : Config) (data : List Candle) (s : BState)
    (hok : TradesLiqOK cfg s.trades) :
    TradesLiqOK cfg (endClose cfg data s).trades := by
  simp only [endClose]
  split_ifs <;>
    first
      | exact hok
      | (intro t ht hreason
         simp only [List.mem_append, List.mem_singleton] at ht
         rcases ht with ht | ht
         · exact hok t ht hreason
         · subst ht
           simp at hreason)

/-- C3: whenever the backtest liquidates a position, the recorded trade
exits exactly at the liquidation price that was computed at entry —
`entryPrice * (1 - 1/leverage + maintenanceMarginRate)` for a long,
mirrored for a short — its `pnl` is exactly `-(entryPrice * quantity)`
(the whole posted margin), and its `return` is `-1`.  Conjunct one: every
liquidation trade of a completed run satisfies the price formulas and
has return `-1`; conjunct two: every reachable loop state keeps the
stored liquidation price equal to the entry-time formula; conjunct
three: the liquidation block deducts exactly `entryPrice * positionQty`
from capital and appends exactly that trade record. -/
theorem c3_liquidation_exact (cfg : Config) (data : List Candle)
    (strategyMode interval : String) (useRegimeParams : Bool) :
    (∀ t ∈ (backtest cfg data strategyMode useRegimeParams interval).trades,
        t.exitReason = "liquidation" →
          t.ret = -1
            ∧ (t.direction = "long" →
                t.exitPrice = t.entryPrice * (1 - 1 / cfg.leverage + maintenanceMarginRate))
            ∧ (t.direction = "short" →
                t.exitPrice = t.entryPrice * (1 + 1 / cfg.leverage - maintenanceMarginRate)))
    ∧ (∀ n, LiqInv cfg (loopState cfg data strategyMode interval useRegimeParams n))
    ∧ (∀ (s : BState) (i : Nat) (row : Candle) (regime : Regime),
        liqFires s row.close →
          (liquidate s i data row regime).trades
              = s.trades ++ [⟨(dAt data s.entryBar).timestamp, row.timestamp,
                  if s.position = 1 then "long" else "short",
                  s.entryPrice, s.liquidationPrice, i - s.entryBar,
                  -(s.entryPrice * s.positionQty), -1, "liquidation", regimeTag regime,
                  none, none, s.maxProfitATR⟩]
            ∧ (liquidate s i data row regime).capital
                = s.capital - s.entryPrice * s.positionQty) := by
  refine ⟨?_, fun n => (liqInv_loopState cfg data strategyMode interval useRegimeParams n).1,
    fun s i row regime _ => ⟨rfl, rfl⟩⟩
  intro t ht hreason
  have hok : TradesLiqOK cfg
      (backtest cfg data strategyMode useRegimeParams interval).trades := by
    unfold backtest
    exact tradesLiqOK_endClose cfg data _
      (liqInv_loopState cfg data strategyMode interval useRegimeParams data.length).2
  have h := hok t ht hreason
  refine ⟨h.1, fun hdir => ?_, fun hdir => ?_⟩
  · rw [h.2, hdir]
    unfold calculateLiquidationPrice
    rw [if_pos rfl]
  · rw [h.2, hdir]
    unfold calculateLiquidationPrice
    rw [if_neg (by decide)]

/-- Witness for C3 at a concrete liquidating state: a long entered at 100
with quantity 2 and stored liquidation price 90.4 is hit by a bar closing
at 90; the appended trade exits at 90.4 with `pnl = -200`, `ret = -1`,
and capital drops from 1000 to 800. -/
theorem c3_liquidation_exact_witness :
    liqFires ⟨1000, 1, 100, 0, 95, 2, 452/5, 0, [], [], []⟩ (90 : Rat)
      ∧ ((liquidate ⟨1000, 1, 100, 0, 95, 2, 452/5, 0, [], [], []⟩ 3 []
            ⟨7, 90, 91, 89, 90, 1⟩ ⟨false, false, true⟩).trades
          = [⟨0, 7, "long", 100, 452/5, 3, -(100 * 2), -1, "liquidation", "RANGE",
              none, none, 0⟩]
        ∧ (liquidate ⟨1000, 1, 100, 0, 95, 2, 452/5, 0, [], [], []⟩ 3 []
            ⟨7, 90, 91, 89, 90, 1⟩ ⟨false, false, true⟩).capital = 1000 - 100 * 2) := by
  have hfires : liqFires ⟨1000, 1, 100, 0, 95, 2, 452/5, 0, [], [], []⟩ (90 : Rat) := by
    decide
  have h := (c3_liquidation_exact demoConfig [] "adaptive" "1h" true).2.2
    ⟨1000, 1, 100, 0, 95, 2, 452/5, 0, [], [], []⟩ 3 ⟨7, 90, 91, 89, 90, 1⟩
    ⟨false, false, true⟩ hfires
  exact ⟨hfires, by simpa using h⟩

/-- Counterexample to C8: on closes `[0, 8, 8, 2]` with period 2, the
engine's RSI at index 3 is `0` (its window `{0, -6}` has zero gains),
while the Wilder-smoothed RSI the claim describes is `40` (the smoothed
average gain `2` survives from the initial `+8` change).  So
`timeframe.cjs`'s `calculateRSI` is not Wilder-smoothed. -/
theorem c8_rsi_not_wilder_counterexample :
    rsiAt rsiDemoData 2 3 = some 0
      ∧ specWilderRSI rsiDemoCloses 2 3 = some 40
      ∧ rsiAt rsiDemoData 2 3 ≠ specWilderRSI rsiDemoCloses 2 3 := by
  decide

/-- The window gain sum is non-negative. -/
theorem rsiGains_nonneg (data : List Candle) (period i : Nat) :
    0 ≤ rsiGains data period i := by
  apply List.sum_nonneg
  intro x hx
  simp only [rsiGains, List.mem_map] at hx
  obtain ⟨o, _, ho⟩ := hx
  subst ho
  split_ifs with h
  · exact le_of_lt h
  · exact le_refl 0

/-- The window loss sum is non-negative. -/
theorem rsiLosses_nonneg (data : List Candle) (period i : Nat) :
    0 ≤ rsiLosses data period i := by
  apply List.sum_nonneg
  intro x hx
  simp only [rsiLosses, List.mem_map] at hx
  obtain ⟨o, _, ho⟩ := hx
  subst ho
  split_ifs with h
  · exact le_refl 0
  · exact abs_nonneg _

/-- C8 (amended): the engine RSI of `timeframe.cjs` is defined at each
index past the lookback from the PLAIN window averages
`gains/period` and `losses/period` (Cutler-style, not Wilder-smoothed —
see the counterexample), and it equals exactly `100` precisely when the
window's average loss is zero; the separate Wilder-recurrence
implementation in `trailingStopLoss.cjs` returns `NaN` (not `100`) on an
all-flat window, where both smoothed averages are zero. -/
theorem c8_rsi_simple_average (data : List Candle) (period i : Nat)
    (hp : 0 < period) (hi : period ≤ i) (hlen : i < data.length) :
    (rsiLosses data period i ≠ 0 →
        rsiAt data period i
          = some (100 - 100 / (1 + (rsiGains data period i / (period : Rat))
              / (rsiLosses data period i / (period : Rat)))))
      ∧ (rsiAt data period i = some 100 ↔ rsiLosses data period i = 0)
      ∧ tslCalculateRSI [5, 5, 5] 2 2 = none := by
  have hperiod : ((period : Rat)) ≠ 0 := by
    exact_mod_cast Nat.pos_iff_ne_zero.mp hp
  have havg : rsiLosses data period i / (period : Rat) = 0
      ↔ rsiLosses data period i = 0 := by
    constructor
    · intro h
      exact (div_eq_zero_iff.mp h).resolve_right hperiod
    · intro h
      rw [h, zero_div]
  refine ⟨fun hne => ?_, ⟨fun hval => ?_, fun hz => ?_⟩, by decide⟩
  · unfold rsiAt
    rw [if_pos ⟨hi, hlen⟩, if_neg (fun hc => hne (havg.mp hc))]
  · by_contra hcon
    have hne := hcon
    unfold rsiAt at hval
    rw [if_pos ⟨hi, hlen⟩, if_neg (fun hc => hne (havg.mp hc))] at hval
    have heq := Option.some.inj hval
    have hlt : (0 : Rat) < rsiLosses data period i :=
      lt_of_le_of_ne (rsiLosses_nonneg data period i) (Ne.symm hne)
    have hrs : (0 : Rat) ≤ (rsiGains data period i / (period : Rat))
        / (rsiLosses data period i / (period : Rat)) := by
      apply div_nonneg
      · exact div_nonneg (rsiGains_nonneg data period i) (by positivity)
      · exact div_nonneg (le_of_lt hlt) (by positivity)
    have hden : (0 : Rat) < 1 + (rsiGains data period i / (period : Rat))
        / (rsiLosses data period i / (period : Rat)) := by linarith
    have : (100 : Rat) / (1 + (rsiGains data period i / (period : Rat))
        / (rsiLosses data period i / (period : Rat))) > 0 := by positivity
    linarith
  · unfold rsiAt
    rw [if_pos ⟨hi, hlen⟩, if_pos (by rw [hz, zero_div])]

/-- Witness for C8 (amended) on the demo closes at period 2, index 3:
the window `{0, -6}` has average loss 3 ≠ 0 and the formula yields 0. -/
theorem c8_rsi_simple_average_witness :
    (rsiLosses rsiDemoData 2 3 ≠ 0 →
        rsiAt rsiDemoData 2 3
          = some (100 - 100 / (1 + (rsiGains rsiDemoData 2 3 / (2 : Rat))
              / (rsiLosses rsiDemoData 2 3 / (2 : Rat)))))
      ∧ (rsiAt rsiDemoData 2 3 = some 100 ↔ rsiLosses rsiDemoData 2 3 = 0)
      ∧ tslCalculateRSI [5, 5, 5] 2 2 = none :=
  c8_rsi_simple_average rsiDemoData 2 3 (by decide) (by decide) (by decide)

/-- A `min`-fold is bounded by its seed and by every list element. -/
theorem foldl_min_le (l : List Rat) :
    ∀ acc : Rat, l.foldl min acc ≤ acc ∧ ∀ x ∈ l, l.foldl min acc ≤ x := by
  induction l with
  | nil => exact fun acc => ⟨le_refl acc, fun x hx => absurd hx (List.not_mem_nil x)⟩
  | cons y t ih =>
    intro acc
    have h := ih (min acc y)
    refine ⟨le_trans h.1 (min_le_left acc y), fun x hx => ?_⟩
    rcases List.mem_cons.mp hx with hx | hx
    · subst hx
      exact le_trans h.1 (min_le_right acc x)
    · exact h.2 x hx

/-- Source `Math.min(...xs)` is a lower bound of every element. -/
theorem listMin_le_mem (l : List Rat) (x : Rat) (hx : x ∈ l) : listMin l ≤ x := by
  cases l with
  | nil => exact absurd hx (List.not_mem_nil x)
  | cons y t =>
    rcases List.mem_cons.mp hx with hx | hx
    · subst hx
      exact (foldl_min_le t x).1
    · exact (foldl_min_le t y).2 x hx

/-- Indexing the close series agrees with indexing the candles. -/
theorem closes_getD (data : List Candle) (i : Nat) :
    (data.map (·.close)).getD i 0 = (dAt data i).close := by
  rw [List.getD_eq_getElem?_getD, List.getElem?_map, dAt, List.getD_eq_getElem?_getD]
  cases h : data[i]? with
  | none => simp [defaultCandle]
  | some c => simp

/-- The EMA recurrence, at the candle level: for `0 < i`,
`ema[i] = close[i]*k + ema[i-1]*(1-k)` with `k = 2/(period+1)`. -/
theorem calculateEMAAt_succ (data : List Candle) (period i : Nat) (hi : 0 < i) :
    calculateEMAAt data period i
      = (dAt data i).close * (2 / ((period : Rat) + 1))
        + calculateEMAAt data period (i - 1) * (1 - 2 / ((period : Rat) + 1)) := by
  obtain ⟨j, rfl⟩ := Nat.exists_eq_add_of_lt hi
  simp only [Nat.zero_add, calculateEMAAt, emaAt, Nat.add_sub_cancel]
  rw [closes_getD]

/-- Every in-range candle is a member of the list. -/
theorem dAt_mem (data : List Candle) (j : Nat) (hj : j < data.length) :
    dAt data j ∈ data := by
  rw [dAt, List.getD_eq_getElem?_getD, List.getElem?_eq_getElem hj, Option.getD_some]
  exact List.getElem_mem hj

/-- The low of an in-window candle is an element of the corresponding
`lowSlice`. -/
theorem low_mem_lowSlice (data : List Candle) (a b j : Nat)
    (h1 : a ≤ j) (h2 : j < b) (h3 : j < data.length) :
    (dAt data j).low ∈ lowSlice data a b := by
  unfold lowSlice
  apply List.mem_map_of_mem
  have hidx : ((data.drop a).take (b - a))[j - a]? = some (dAt data j) := by
    rw [List.getElem?_take, List.getElem?_drop]
    have hja : a + (j - a) = j := Nat.add_sub_cancel' h1
    rw [if_pos (by omega), hja, List.getElem?_eq_getElem h3]
    rw [dAt, List.getD_eq_getElem?_getD, List.getElem?_eq_getElem h3]
    rfl
  exact List.getElem?_mem hidx

/-- An optional value cannot be both below `b` and above `c ≥ b`. -/
theorem oLt_oGt_false (a : Option Rat) (b c : Rat)
    (h1 : oLt a b = true) (h2 : oGt a c = true) (hbc : b ≤ c) : False := by
  cases a with
  | none => simp [oLt] at h1
  | some x =>
    simp only [oLt, decide_eq_true_eq] at h1
    simp only [oGt, decide_eq_true_eq] at h2
    linarith

/-- The regime classifier never marks a bar both Bull and Bear, and a
Range bar is marked neither. -/
theorem regimeAt_exclusive (data : List Candle) (interval : String)
    (regimeLookback i : Nat) :
    ¬((regimeAt data interval regimeLookback i).bull = true
        ∧ (regimeAt data interval regimeLookback i).bear = true)
      ∧ ((regimeAt data interval regimeLookback i).range = true →
          (regimeAt data interval regimeLookback i).bull = false
            ∧ (regimeAt data interval regimeLookback i).bear = false) := by
  unfold regimeAt
  split_ifs with h
  · exact ⟨fun hc => by simp at hc, fun _ => ⟨rfl, rfl⟩⟩
  all_goals
    refine ⟨fun hc => ?_, fun hr => ?_⟩
  all_goals
    first
      | (simp only [Bool.and_eq_true, decide_eq_true_eq] at hc
         linarith [hc.1.1, hc.2.1])
      | (simp only [Bool.and_eq_true, Bool.not_eq_true'] at hr ⊢
         exact hr)

/-- Indicator-parameter bounds used by the exclusivity proof: the fast
EMA period exceeds 1 and the slow EMA period is at least 50, for every
interval string. -/
theorem getTimeframeParams_bounds (interval : String) :
    1 < (getTimeframeParams interval).emaFast
      ∧ 50 ≤ (getTimeframeParams interval).emaSlow := by
  unfold getTimeframeParams defaultParams
  split_ifs <;> exact ⟨by norm_num, by norm_num⟩

set_option maxRecDepth 200000 in
set_option maxHeartbeats 2000000 in
/-- Counterexample to C7: on `bothSignalsData` — whose bars 40–49 carry a
malformed `low` far above their own close — `bear_market` mode sets BOTH
`long` (extreme-bounce: RSI ≈ 0.14, an up-close on rising volume) and
`short` (breakdown: the close sits below the corrupted 10-bar low) at
bar 50. -/
theorem c7_both_signals_counterexample :
    (signalAt bothSignalsData "bear_market" "1m" 50).long = true
      ∧ (signalAt bothSignalsData "bear_market" "1m" 50).short = true := by
  constructor <;> decide

/-- C7 (amended): for candle sequences whose candles satisfy
`low ≤ close` (true of all real market candles; only `bear_market` mode
needs it), no strategy mode ever sets `long` and `short` both true on
the same bar. -/
theorem c7_signals_exclusive (data : List Candle) (strategyMode interval : String)
    (i : Nat) (hlen : i < data.length)
    (hsane : ∀ c ∈ data, c.low ≤ c.close) :
    ¬((signalAt data strategyMode interval i).long = true
        ∧ (signalAt data strategyMode interval i).short = true) := by
  rintro ⟨hl, hs⟩
  simp only [signalAt] at hl hs
  by_cases hH : i < max (getTimeframeParams interval).emaSlow
      (getTimeframeParams interval).regimeLookback
  · rw [if_pos hH] at hl
    simp at hl
  · rw [if_neg hH] at hl hs
    have h50 : 50 ≤ i := le_trans
      (le_trans (getTimeframeParams_bounds interval).2
        (le_max_left _ (getTimeframeParams interval).regimeLookback))
      (not_lt.mp hH)
    have hi0 : 0 < i := by omega
    have him1 : i - 1 < data.length := by omega
    have hlb1 : (1 : Nat) ≤ (if isMinuteInterval interval then 10 else 20) := by
      split_ifs <;> omega
    have hlbi : (if isMinuteInterval interval then 10 else 20) ≤ i := by
      split_ifs <;> omega
    by_cases hm1 : strategyMode = "mean_reversion"
    · rw [if_pos hm1] at hl hs
      simp only [Bool.and_eq_true, decide_eq_true_eq] at hl hs
      linarith [hl.2, hs.2]
    · rw [if_neg hm1] at hl hs
      by_cases hm2 : strategyMode = "momentum"
      · rw [if_pos hm2] at hl hs
        simp only [Bool.and_eq_true, decide_eq_true_eq] at hl hs
        exact oLt_oGt_false _ 50 50 hs.1.1.2 hl.1.1.2 (le_refl _)
      · rw [if_neg hm2] at hl hs
        by_cases hm3 : strategyMode = "pullback"
        · rw [if_pos hm3] at hl hs
          simp only [Bool.and_eq_true, decide_eq_true_eq] at hl hs
          linarith [hl.1.1.1.1, hs.1.1.1.1]
        · rw [if_neg hm3] at hl hs
          by_cases hm4 : strategyMode = "bear_market"
          · rw [if_pos hm4] at hl hs
            simp only [Bool.and_eq_true, Bool.or_eq_true, decide_eq_true_eq] at hl hs
            obtain ⟨⟨hrsi, hup⟩, _⟩ := hl
            rcases hs with (hA | hB) | hC
            · exact oLt_oGt_false _ _ _ hrsi hA.1.1 (by split_ifs <;> norm_num)
            · obtain ⟨⟨hB1, hB2⟩, _⟩ := hB
              rw [calculateEMAAt_succ data (getTimeframeParams interval).emaFast i hi0]
                at hB1
              have hp1 : (1 : Rat) < ((getTimeframeParams interval).emaFast : Rat) := by
                exact_mod_cast (getTimeframeParams_bounds interval).1
              have hkpos : (0 : Rat)
                  < 1 - 2 / (((getTimeframeParams interval).emaFast : Rat) + 1) := by
                rw [sub_pos, div_lt_one (by linarith)]
                linarith
              have hmul : (dAt data i).close
                    * (1 - 2 / (((getTimeframeParams interval).emaFast : Rat) + 1))
                  < calculateEMAAt data (getTimeframeParams interval).emaFast (i - 1)
                    * (1 - 2 / (((getTimeframeParams interval).emaFast : Rat) + 1)) := by
                ring_nf
                ring_nf at hB1
                linarith
              have hce := (mul_lt_mul_right hkpos).mp hmul
              linarith
            · obtain ⟨hC1, _⟩ := hC
              rw [if_pos hlbi] at hC1
              have hmem := low_mem_lowSlice data
                (i - (if isMinuteInterval interval then 10 else 20)) i (i - 1)
                (by omega) (by omega) him1
              have hmin := listMin_le_mem _ _ hmem
              have hlc := hsane (dAt data (i - 1)) (dAt_mem data (i - 1) him1)
              linarith
          · rw [if_neg hm4] at hl hs
            simp only [Bool.and_eq_true, Bool.or_eq_true, decide_eq_true_eq] at hl hs
            have hex := regimeAt_exclusive data interval
              (getTimeframeParams interval).regimeLookback i
            rcases hl with (hbl | hbrl) | hrl
            · rcases hs with hbs | hrs
              · exact hex.1 ⟨hbl.1.1.1.1.1, hbs.1.1.1⟩
              · have hbf := hex.2 hrs.1
                rw [hbl.1.1.1.1.1] at hbf
                exact Bool.noConfusion hbf.1
            · rcases hs with hbs | hrs
              · exact oLt_oGt_false _ _ _ hbrl.1.2 hbs.1.1.2
                  (by split_ifs <;> norm_num)
              · have hbf := hex.2 hrs.1
                rw [hbrl.1.1] at hbf
                exact Bool.noConfusion hbf.2
            · rcases hs with hbs | hrs
              · have hbf := hex.2 hrl.1
                rw [hbs.1.1.1] at hbf
                exact Bool.noConfusion hbf.2
              · exact oLt_oGt_false _ _ _ hrl.2 hrs.2
                  (by split_ifs <;> norm_num)

/-- Witness for C7 (amended) on a one-candle well-formed series. -/
theorem c7_signals_exclusive_witness :
    ¬((signalAt [⟨0, 1, 1, 1, 1, 1⟩] "adaptive" "1h" 0).long = true
        ∧ (signalAt [⟨0, 1, 1, 1, 1, 1⟩] "adaptive" "1h" 0).short = true) :=
  c7_signals_exclusive [⟨0, 1, 1, 1, 1, 1⟩] "adaptive" "1h" 0 (by decide) (by decide)

set_option maxRecDepth 1000000 in
set_option maxHeartbeats 4000000 in
/-- Counterexample to C4: in the crash scenario the single close is a
liquidation after 32 one-minute bars, i.e. 8 simulated hours, so the
claim's funding formula prescribes a strictly positive funding charge
(conjunct 7 evaluates it on this trade's notional); yet the recorded
trade carries no `fundingCost` field and capital is reduced by exactly
`-(entryPrice*quantity)` — the liquidation path never calls
`calculateFundingCost`. -/
theorem c4_liquidation_no_funding_counterexample :
    crashRun.trades.length = 1
      ∧ (crashRun.trades.getD 0 dummyTrade).exitReason = "liquidation"
      ∧ (crashRun.trades.getD 0 dummyTrade).barsHeld = 32
      ∧ (crashRun.trades.getD 0 dummyTrade).fundingCost = none
      ∧ (crashRun.trades.getD 0 dummyTrade).pnl = -(19992/25)
      ∧ crashRun.capital = demoConfig.initialCapital + (crashRun.trades.getD 0 dummyTrade).pnl
      ∧ 0 < calculateFundingCost
          ((crashRun.trades.getD 0 dummyTrade).exitPrice
            * ((19992/25) / (crashRun.trades.getD 0 dummyTrade).entryPrice)
            * demoConfig.leverage) 8 (1/10000) := by
  decide

set_option maxRecDepth 1000000 in
set_option maxHeartbeats 4000000 in
/-- Counterexample to C5: in the crash scenario the capital held at entry
is 1000 (every appended equity point equals 1000 up to the liquidation),
the regime table's fraction is 0.8, but the amount deducted on
liquidation is `799.68 = 0.8*1000 - entryFee`, not `0.8 * 1000 = 800` —
the entry fee is subtracted from the lost margin.  The conclusion
(positive capital) still holds: final capital is `200.32`. -/
theorem c5_margin_fraction_counterexample :
    crashRun.trades.length = 1
      ∧ (crashRun.trades.getD 0 dummyTrade).exitReason = "liquidation"
      ∧ (∀ e ∈ crashRun.equityCurve, e = 1000)
      ∧ crashRun.capital = 1000 - 19992/25
      ∧ ¬((1000 - 19992/25 : Rat) = 1000 - (8/10) * 1000) := by
  decide

set_option maxRecDepth 1000000 in
set_option maxHeartbeats 4000000 in
/-- Counterexample to C6: the crash scenario has 83 candles but its
equity curve has only 82 points — the `continue` in the liquidation
branch skips the equity push for the liquidation bar. -/
theorem c6_equity_skips_liquidation_bar_counterexample :
    crashData.length = 83
      ∧ crashRun.equityCurve.length = 82
      ∧ crashRun.trades.length = 1
      ∧ (crashRun.trades.getD 0 dummyTrade).exitReason = "liquidation" := by
  decide

/-- The last element of a one-element append. -/
theorem getLastD_append_single (l : List Trade) (t d : Trade) :
    (l ++ [t]).getLastD d = t :=
  List.getLastD_concat d t l

/-- C4 (amended): funding accrues on stop exits and end-of-data closes —
each reduces realized PnL by
`positionNotional * fundingRate * floor(hoursHeld/8)` via
`calculateFundingCost`, recorded in the trade's `fundingCost` field —
but the liquidation path is exempt: it deducts exactly
`entryPrice * positionQty` with no funding term and records no
`fundingCost` (see the counterexample for a liquidation held 8 hours
whose prescribed funding would have been positive). -/
theorem c4_funding_by_exit_path (cfg : Config) (data : List Candle) (s : BState)
    (i : Nat) (row : Candle) (currentAtr : Rat) (regime : Regime) :
    (s.position = 1 → ∀ ts ex fund : Rat,
      ts = max s.trailingStop
        (calculateDynamicTrailingStop row.close s.entryPrice currentAtr 1 regime) →
      ex = calculateStopSlippage ts "long" currentAtr →
      fund = calculateFundingCost (ex * s.positionQty * cfg.leverage)
        (((i - s.entryBar : Nat) : Rat) * (1/4)) (1/10000) →
      row.close ≤ ts →
      (manageOpen cfg data s i row currentAtr regime).capital
          = s.capital + ((ex - s.entryPrice) * s.positionQty * cfg.leverage
              - ex * s.positionQty * cfg.leverage * cfg.takerFee - fund)
        ∧ ((manageOpen cfg data s i row currentAtr regime).trades.getLastD
            dummyTrade).fundingCost = some fund
        ∧ (manageOpen cfg data s i row currentAtr regime).trades.length
            = s.trades.length + 1)
    ∧ (s.position = -1 → ∀ ts ex fund : Rat,
      ts = min s.trailingStop
        (calculateDynamicTrailingStop row.close s.entryPrice currentAtr (-1) regime) →
      ex = calculateStopSlippage ts "short" currentAtr →
      fund = calculateFundingCost (ex * s.positionQty * cfg.leverage)
        (((i - s.entryBar : Nat) : Rat) * (1/4)) (1/10000) →
      ts ≤ row.close →
      (manageOpen cfg data s i row currentAtr regime).capital
          = s.capital + ((s.entryPrice - ex) * s.positionQty * cfg.leverage
              - ex * s.positionQty * cfg.leverage * cfg.takerFee - fund)
        ∧ ((manageOpen cfg data s i row currentAtr regime).trades.getLastD
            dummyTrade).fundingCost = some fund
        ∧ (manageOpen cfg data s i row currentAtr regime).trades.length
            = s.trades.length + 1)
    ∧ (liqFires s row.close →
      (liquidate s i data row regime).capital
          = s.capital - s.entryPrice * s.positionQty
        ∧ ((liquidate s i data row regime).trades.getLastD dummyTrade).fundingCost = none
        ∧ (liquidate s i data row regime).trades.length = s.trades.length + 1)
    ∧ (s.position ≠ 0 → ∀ ex fund : Rat,
      ex = (dAt data (data.length - 1)).close →
      fund = calculateFundingCost (ex * s.positionQty * cfg.leverage)
        (((data.length - s.entryBar : Nat) : Rat) * (1/4)) (1/10000) →
      (endClose cfg data s).capital
          = s.capital + ((if s.position = 1 then (ex - s.entryPrice) else (s.entryPrice - ex))
                * s.positionQty * cfg.leverage
              - ex * s.positionQty * cfg.leverage * cfg.takerFee - fund)
        ∧ ((endClose cfg data s).trades.getLastD dummyTrade).fundingCost = some fund
        ∧ (endClose cfg data s).trades.length = s.trades.length + 1) := by
  refine ⟨fun h ts ex fund hts hex hfund hhit => ?_,
          fun h ts ex fund hts hex hfund hhit => ?_,
          fun hliq => ?_, fun h ex fund hex hfund => ?_⟩
  · subst hts hex hfund
    unfold manageOpen
    rw [if_pos (by rw [h]; decide)]
    simp only [h, if_pos rfl, ite_true]
    rw [if_pos hhit]
    refine ⟨rfl, ?_, by simp⟩
    rw [getLastD_append_single]
  · subst hts hex hfund
    unfold manageOpen
    rw [if_pos (by rw [h]; decide)]
    simp only [h, show ((-1 : Int) = 1) = False from by decide, if_false, ite_false]
    rw [if_pos hhit]
    refine ⟨rfl, ?_, by simp⟩
    rw [getLastD_append_single]
  · refine ⟨rfl, ?_, by simp [liquidate]⟩
    unfold liquidate
    rw [getLastD_append_single]
  · subst hex hfund
    unfold endClose
    rw [if_pos h]
    refine ⟨?_, ?_, by simp⟩
    · by_cases h1 : s.position = 1
      · simp only [h1, ite_true, if_pos rfl]
      · simp only [if_neg h1]
    · rw [getLastD_append_single]

/-- Witness for C4 (amended): a concrete long stop exit at stop 99 with
ATR 1 fills at 98.7, pays the taker fee on the notional, and accrues
zero funding for 5 bars (1.25 hours); the recorded `fundingCost` is
`some 0`. -/
theorem c4_funding_by_exit_path_witness :
    (manageOpen demoConfig [] ⟨1000, 1, 100, 0, 99, 1, 2/5, 0, [], [], []⟩ 5
        ⟨5, 95, 96, 94, 95, 1⟩ 1 ⟨false, false, true⟩).capital
        = 1000 + ((987/10 - 100) * 1 * 1 - (987/10) * 1 * 1 * (4/10000) - 0)
      ∧ ((manageOpen demoConfig [] ⟨1000, 1, 100, 0, 99, 1, 2/5, 0, [], [], []⟩ 5
          ⟨5, 95, 96, 94, 95, 1⟩ 1 ⟨false, false, true⟩).trades.getLastD
          dummyTrade).fundingCost = some 0 := by
  have h := (c4_funding_by_exit_path demoConfig []
    ⟨1000, 1, 100, 0, 99, 1, 2/5, 0, [], [], []⟩ 5
    ⟨5, 95, 96, 94, 95, 1⟩ 1 ⟨false, false, true⟩).1 rfl _ _ _ rfl rfl rfl (by decide)
  refine ⟨?_, ?_⟩
  · rw [h.1]; decide
  · rw [h.2.1]; decide

/-- The margin-risk invariant: while a position is open, the capital on
the books strictly exceeds the margin that a liquidation would deduct
(`entryPrice * positionQty`). -/
def MarginInv (s : BState) : Prop :=
  s.position ≠ 0 → 0 < s.capital - s.entryPrice * s.positionQty

instance (s : BState) : Decidable (MarginInv s) := by
  unfold MarginInv; infer_instance

/-- The open-position block preserves the margin-risk invariant. -/
theorem marginInv_manageOpen (cfg : Config) (data : List Candle) (s : BState)
    (i : Nat) (row : Candle) (currentAtr : Rat) (regime : Regime)
    (hinv : MarginInv s) :
    MarginInv (manageOpen cfg data s i row currentAtr regime) := by
  simp only [manageOpen]
  split_ifs <;> (intro h; first | exact hinv h | simp at h)

/-- The liquidation block leaves the simulator flat, so the margin-risk
invariant holds vacuously afterwards. -/
theorem marginInv_liquidate (s : BState) (i : Nat) (data : List Candle)
    (row : Candle) (regime : Regime) :
    MarginInv (liquidate s i data row regime) := by
  intro h
  simp [liquidate] at h

/-- The entry block establishes the margin-risk invariant: the posted
position value `entryPrice * positionQty` equals the sized margin minus
the entry fee, which stays strictly below the capital held at entry. -/
theorem marginInv_tryEnter (cfg : Config) (s : BState) (i : Nat) (row : Candle)
    (currentAtr : Rat) (signal : Signal) (params : RegimeParams)
    (hlev : 0 ≤ cfg.leverage) (hfee : 0 ≤ cfg.takerFee)
    (hpct0 : 0 < params.positionSizePct) (hpct1 : params.positionSizePct < 1)
    (hinv : MarginInv s) :
    MarginInv (tryEnter cfg s i row currentAtr signal params) := by
  have key : ∀ capital ent : Rat, 0 < capital →
      0 < capital - ent * ((capital * params.positionSizePct
        - capital * params.positionSizePct * cfg.leverage * cfg.takerFee) / ent) := by
    intro capital ent hcap
    by_cases hz : ent = 0
    · rw [hz, div_zero, mul_zero, sub_zero]
      exact hcap
    · rw [mul_comm ent, div_mul_cancel₀ _ hz]
      have h1 : 0 < capital * (1 - params.positionSizePct) :=
        mul_pos hcap (by linarith)
      have h2 : 0 ≤ capital * params.positionSizePct * cfg.leverage * cfg.takerFee :=
        mul_nonneg (mul_nonneg (mul_nonneg (le_of_lt hcap) (le_of_lt hpct0)) hlev) hfee
      nlinarith
  simp only [tryEnter]
  split_ifs with hflat hlong hshort
  · intro _
    exact key s.capital _ hflat.2
  · intro _
    exact key s.capital _ hflat.2
  · exact hinv
  · exact hinv

/-- The position-sizing fraction used by `backtest` is strictly between
0 and 1 on both the regime-table and the fixed-fraction paths. -/
theorem positionSizePct_bounds (useRegimeParams b1 b2 b3 : Bool) :
    0 < (if useRegimeParams then getRegimeParameters b1 b2 b3
          else (⟨1/2, 3⟩ : RegimeParams)).positionSizePct
      ∧ (if useRegimeParams then getRegimeParameters b1 b2 b3
          else (⟨1/2, 3⟩ : RegimeParams)).positionSizePct < 1 := by
  unfold getRegimeParameters
  split_ifs <;> exact ⟨by norm_num, by norm_num⟩

/-- One bar step preserves the margin-risk invariant. -/
theorem marginInv_stepBar (cfg : Config) (data : List Candle)
    (strategyMode interval : String) (useRegimeParams : Bool) (s : BState) (i : Nat)
    (hlev : 0 ≤ cfg.leverage) (hfee : 0 ≤ cfg.takerFee)
    (hinv : MarginInv s) :
    MarginInv (stepBar cfg data strategyMode interval useRegimeParams s i) := by
  unfold stepBar
  cases hatr : (signalAt data strategyMode interval i).atr with
  | none =>
    simp only [hatr]
    exact hinv
  | some a =>
    simp only [hatr]
    have hinv1 : MarginInv { s with regimeLog := s.regimeLog
        ++ [regimeTag (signalAt data strategyMode interval i).regime] } := hinv
    by_cases hliq : liqFires { s with regimeLog := s.regimeLog
        ++ [regimeTag (signalAt data strategyMode interval i).regime] } (dAt data i).close
    · rw [if_pos hliq]
      exact marginInv_liquidate _ i data _ _
    · rw [if_neg hliq]
      have hmo := marginInv_manageOpen cfg data _ i (dAt data i) a
        (signalAt data strategyMode interval i).regime hinv1
      have hpct := positionSizePct_bounds useRegimeParams
        (signalAt data strategyMode interval i).regime.bull
        (signalAt data strategyMode interval i).regime.bear
        (signalAt data strategyMode interval i).regime.range
      exact marginInv_tryEnter cfg _ i (dAt data i) a
        (signalAt data strategyMode interval i) _ hlev hfee hpct.1 hpct.2 hmo

/-- The loop preserves the margin-risk invariant from the start. -/
theorem marginInv_loopState (cfg : Config) (data : List Candle)
    (strategyMode interval : String) (useRegimeParams : Bool)
    (hlev : 0 ≤ cfg.leverage) (hfee : 0 ≤ cfg.takerFee) :
    ∀ n, MarginInv (loopState cfg data strategyMode interval useRegimeParams n)
  | 0 => fun h => by simp [loopState, initState] at h
  | n + 1 => marginInv_stepBar cfg data strategyMode interval useRegimeParams _ n
      hlev hfee (marginInv_loopState cfg data strategyMode interval useRegimeParams
        hlev hfee n)

/-- C5 (amended): for every run, whenever a position is open the capital
strictly exceeds `entryPrice*positionQty`, which is exactly what a
liquidation deducts, so capital stays strictly positive after every
liquidation; and that deducted amount is the sized fraction of the
capital held at entry (0.8 under the regime table, 0.5 otherwise) MINUS
the entry fee `margin*leverage*takerFee` — not the bare fraction (see
the counterexample). -/
theorem c5_liquidation_capital_positive (cfg : Config) (data : List Candle)
    (strategyMode interval : String) (useRegimeParams : Bool)
    (hcap : 0 < cfg.initialCapital) (hlev : 0 ≤ cfg.leverage) (hfee : 0 ≤ cfg.takerFee) :
    (∀ n, MarginInv (loopState cfg data strategyMode interval useRegimeParams n))
    ∧ (∀ (s : BState) (i : Nat) (data' : List Candle) (row : Candle) (regime : Regime),
        MarginInv s → liqFires s row.close →
          (liquidate s i data' row regime).capital
              = s.capital - s.entryPrice * s.positionQty
            ∧ 0 < (liquidate s i data' row regime).capital)
    ∧ (∀ (s : BState) (i : Nat) (row : Candle) (currentAtr : Rat) (signal : Signal)
          (params : RegimeParams),
        signal.long = true →
        calculateSlippage row.close "buy" currentAtr ≠ 0 →
        s.position = 0 → 0 < s.capital →
          (tryEnter cfg s i row currentAtr signal params).entryPrice
              * (tryEnter cfg s i row currentAtr signal params).positionQty
            = s.capital * params.positionSizePct
              - s.capital * params.positionSizePct * cfg.leverage * cfg.takerFee) := by
  refine ⟨marginInv_loopState cfg data strategyMode interval useRegimeParams hlev hfee,
    fun s i data' row regime hinv hliq => ⟨rfl, hinv hliq.1⟩,
    fun s i row currentAtr signal params hlong hne hflat hpos => ?_⟩
  unfold tryEnter
  rw [if_pos ⟨hflat, hpos⟩, if_pos hlong]
  exact mul_div_cancel₀ _ hne

/-- Witness for C5 (amended): a concrete liquidation of a long entered
with margin 300 out of capital 1000 leaves capital 700 > 0. -/
theorem c5_liquidation_capital_positive_witness :
    (liquidate ⟨1000, 1, 100, 0, 95, 3, 452/5, 0, [], [], []⟩ 4 []
        ⟨9, 90, 91, 89, 90, 1⟩ ⟨false, false, true⟩).capital = 1000 - 100 * 3
      ∧ 0 < (liquidate ⟨1000, 1, 100, 0, 95, 3, 452/5, 0, [], [], []⟩ 4 []
          ⟨9, 90, 91, 89, 90, 1⟩ ⟨false, false, true⟩).capital := by
  have h := (c5_liquidation_capital_positive demoConfig [] "adaptive" "1h" true
    (by decide) (by decide) (by decide)).2.1
    ⟨1000, 1, 100, 0, 95, 3, 452/5, 0, [], [], []⟩ 4 [] ⟨9, 90, 91, 89, 90, 1⟩
    ⟨false, false, true⟩ (by decide) (by decide)
  exact ⟨by rw [h.1], h.2⟩

/-- Number of liquidation trades in a log. -/
def liqCount (trades : List Trade) : Nat :=
  (trades.filter (fun t => decide (t.exitReason = "liquidation"))).length

/-- Counting a one-trade append. -/
theorem liqCount_append_single (l : List Trade) (t : Trade) :
    liqCount (l ++ [t])
      = liqCount l + (if t.exitReason = "liquidation" then 1 else 0) := by
  unfold liqCount
  rw [List.filter_append]
  split_ifs with h
  · simp [List.filter, h]
  · simp [List.filter, h]

/-- The open-position block never touches the equity curve. -/
theorem manageOpen_equity (cfg : Config) (data : List Candle) (s : BState)
    (i : Nat) (row : Candle) (currentAtr : Rat) (regime : Regime) :
    (manageOpen cfg data s i row currentAtr regime).equityCurve = s.equityCurve := by
  simp only [manageOpen]
  split_ifs <;> rfl

/-- The entry block never touches the equity curve. -/
theorem tryEnter_equity (cfg : Config) (s : BState) (i : Nat) (row : Candle)
    (currentAtr : Rat) (signal : Signal) (params : RegimeParams) :
    (tryEnter cfg s i row currentAtr signal params).equityCurve = s.equityCurve := by
  simp only [tryEnter]
  split_ifs <;> rfl

/-- The open-position block never appends a liquidation trade. -/
theorem manageOpen_liqCount (cfg : Config) (data : List Candle) (s : BState)
    (i : Nat) (row : Candle) (currentAtr : Rat) (regime : Regime) :
    liqCount (manageOpen cfg data s i row currentAtr regime).trades
      = liqCount s.trades := by
  simp only [manageOpen]
  split_ifs <;>
    first
      | rfl
      | (rw [liqCount_append_single]
         split_ifs with hr
         · simp at hr
         · rfl)

/-- Each processed bar contributes exactly one unit to
`equity points + liquidation trades`: an equity point on every
non-liquidation bar, a liquidation trade (and no equity point) on a
liquidation bar. -/
theorem stepBar_equity_balance (cfg : Config) (data : List Candle)
    (strategyMode interval : String) (useRegimeParams : Bool) (s : BState) (i : Nat) :
    (stepBar cfg data strategyMode interval useRegimeParams s i).equityCurve.length
        + liqCount (stepBar cfg data strategyMode interval useRegimeParams s i).trades
      = s.equityCurve.length + liqCount s.trades + 1 := by
  unfold stepBar
  cases hatr : (signalAt data strategyMode interval i).atr with
  | none =>
    simp only [hatr]
    simp [Nat.add_right_comm]
  | some a =>
    simp only [hatr]
    by_cases hliq : liqFires { s with regimeLog := s.regimeLog
        ++ [regimeTag (signalAt data strategyMode interval i).regime] } (dAt data i).close
    · rw [if_pos hliq]
      show s.equityCurve.length + liqCount (_ ++ [_]) = _
      rw [liqCount_append_single, if_pos]
      · have he : liqCount ({ s with regimeLog := s.regimeLog
            ++ [regimeTag (signalAt data strategyMode interval i).regime] } : BState).trades
            = liqCount s.trades := rfl
        rw [he]
        omega
      · rfl
    · rw [if_neg hliq]
      show (_ ++ [_]).length + liqCount (tryEnter cfg _ i _ a _ _).trades = _
      rw [tryEnter_trades, tryEnter_equity, manageOpen_equity, manageOpen_liqCount]
      simp [Nat.add_right_comm]

/-- After `n` bars the equity-curve length plus the number of
liquidation trades equals `n`. -/
theorem loopState_equity_balance (cfg : Config) (data : List Candle)
    (strategyMode interval : String) (useRegimeParams : Bool) :
    ∀ n, (loopState cfg data strategyMode interval useRegimeParams n).equityCurve.length
        + liqCount (loopState cfg data strategyMode interval useRegimeParams n).trades = n
  | 0 => by simp [loopState, initState, liqCount]
  | n + 1 => by
    have ih := loopState_equity_balance cfg data strategyMode interval useRegimeParams n
    show (stepBar _ _ _ _ _ _ _).equityCurve.length + liqCount (stepBar _ _ _ _ _ _ _).trades
      = n + 1
    rw [stepBar_equity_balance]
    omega

/-- The end-of-data close never touches the equity curve. -/
theorem endClose_equity (cfg : Config) (data : List Candle) (s : BState) :
    (endClose cfg data s).equityCurve = s.equityCurve := by
  simp only [endClose]
  split_ifs <;> rfl

/-- The end-of-data close never appends a liquidation trade. -/
theorem endClose_liqCount (cfg : Config) (data : List Candle) (s : BState) :
    liqCount (endClose cfg data s).trades = liqCount s.trades := by
  simp only [endClose]
  split_ifs <;>
    first
      | rfl
      | (rw [liqCount_append_single]
         split_ifs with hr
         · simp at hr
         · rfl)

/-- C6 (amended): every processed bar appends exactly one equity point —
including bars with undefined ATR, which re-append the running capital —
EXCEPT liquidation bars, whose `continue` skips the push entirely; the
curve is append-only (each step either leaves it unchanged or extends it
by one final element), and the completed run satisfies
`equityCurve.length + (number of liquidation trades) = number of bars`,
so the final length is `n` minus the number of liquidations, not `n`. -/
theorem c6_equity_append_per_bar (cfg : Config) (data : List Candle)
    (strategyMode interval : String) (useRegimeParams : Bool) :
    (∀ (s : BState) (i : Nat),
      ((signalAt data strategyMode interval i).atr = none →
        (stepBar cfg data strategyMode interval useRegimeParams s i).equityCurve
          = s.equityCurve ++ [s.capital])
      ∧ (∀ a : Rat, (signalAt data strategyMode interval i).atr = some a →
          liqFires s (dAt data i).close →
          (stepBar cfg data strategyMode interval useRegimeParams s i).equityCurve
            = s.equityCurve)
      ∧ (∀ a : Rat, (signalAt data strategyMode interval i).atr = some a →
          ¬liqFires s (dAt data i).close →
          (stepBar cfg data strategyMode interval useRegimeParams s i).equityCurve
            = s.equityCurve
              ++ [(stepBar cfg data strategyMode interval useRegimeParams s i).capital]))
    ∧ (∀ n, (loopState cfg data strategyMode interval useRegimeParams n).equityCurve.length
          + liqCount (loopState cfg data strategyMode interval useRegimeParams n).trades
        = n)
    ∧ (backtest cfg data strategyMode useRegimeParams interval).equityCurve.length
          + liqCount (backtest cfg data strategyMode useRegimeParams interval).trades
        = data.length := by
  refine ⟨fun s i => ⟨fun hnone => ?_, fun a ha hliq => ?_, fun a ha hliq => ?_⟩,
    loopState_equity_balance cfg data strategyMode interval useRegimeParams, ?_⟩
  · unfold stepBar
    simp only [hnone]
  · unfold stepBar
    simp only [ha]
    have hliq1 : liqFires { s with regimeLog := s.regimeLog
        ++ [regimeTag (signalAt data strategyMode interval i).regime] }
        (dAt data i).close := hliq
    rw [if_pos hliq1]
    rfl
  · unfold stepBar
    simp only [ha]
    have hliq1 : ¬liqFires { s with regimeLog := s.regimeLog
        ++ [regimeTag (signalAt data strategyMode interval i).regime] }
        (dAt data i).close := hliq
    rw [if_neg hliq1]
    simp [tryEnter_equity, manageOpen_equity]
  · unfold backtest
    rw [endClose_equity, endClose_liqCount]
    exact loopState_equity_balance cfg data strategyMode interval useRegimeParams
      data.length

/-- Witness for C6 (amended): on an empty candle list the first bar index
is below the history floor, so the step appends the running capital, and
the completed run balances `0 + 0 = 0`. -/
theorem c6_equity_append_per_bar_witness :
    (stepBar demoConfig [] "adaptive" "1h" true (initState demoConfig) 0).equityCurve
        = (initState demoConfig).equityCurve ++ [(initState demoConfig).capital]
      ∧ (backtest demoConfig [] "adaptive" true "1h").equityCurve.length
          + liqCount (backtest demoConfig [] "adaptive" true "1h").trades
        = ([] : List Candle).length := by
  have h := c6_equity_append_per_bar demoConfig [] "adaptive" "1h" true
  exact ⟨(h.1 (initState demoConfig) 0).1 (by decide), h.2.2⟩

end PaperBot
